import Mathlib

/-!
# kayochan/jvm: a verification development

A shallow embedding of four source files of the VM

* `src/rtda/ma/jclass.h`: the class entity and its array predicates,
* `src/main.c`: command-line parsing and the start-up sequence,
* `src/native/java/security/AccessController.cpp` and
  `src/native/sun/io/Win32ErrorMode.cpp`: native methods and their
  registration tables,

followed by theorems about them.

Conventions of the embedding.

* A C string is a `CStr`: the characters before the terminating NUL.  Reading
  `s[i]` is `CStr.at s i`, which yields the terminator at `i = strlen s`.
* A nullable pointer is an `Option`; a function that dereferences its
  argument without a check takes the pointee itself.
* `strcpy`/`strcat` write into a buffer of a given size: they yield `none`
  when the result, with its terminator, does not fit.  The C program then
  writes past the buffer and its behaviour is undefined; a run is cut at that
  point and marked as overflowed.
* Diagnostics printed through `printvm` are not part of the state.
-/

namespace JVM

/-! ## C strings -/

/-- A NUL-terminated C string, given by the characters before its terminator. -/
structure CStr where
  chars : List Char
  nonul : ∀ c ∈ chars, c ≠ '\x00'

instance : DecidableEq CStr := fun a b =>
  decidable_of_iff (a.chars = b.chars) (by cases a; cases b; simp)

/-- The C expression `s[i]`, for `i ≤ strlen s`; position `strlen s` holds the terminator. -/
def CStr.at (s : CStr) (i : Nat) : Char := s.chars.getD i '\x00'

/-- The empty string, the content of a zero-initialised `char` buffer. -/
def CStr.empty : CStr := ⟨[], by simp⟩

/-- Concatenation of two C strings: adjacent string literals, and `strcat`. -/
def CStr.append (a b : CStr) : CStr :=
  ⟨a.chars ++ b.chars, by
    intro c hc
    rcases List.mem_append.mp hc with h | h
    · exact a.nonul c h
    · exact b.nonul c h⟩

/-- The C function `strlen`. -/
def strlen (s : CStr) : Nat := s.chars.length

/-- Byte-wise comparison behind `strcmp`: the difference at the first position that differs. -/
def strcmpAux : List Char → List Char → Int
  | [], [] => 0
  | [], d :: _ => 0 - (d.toNat : Int)
  | c :: _, [] => (c.toNat : Int)
  | c :: cs, d :: ds => if c = d then strcmpAux cs ds else (c.toNat : Int) - (d.toNat : Int)

/-- The C function `strcmp`. -/
def strcmp (a b : CStr) : Int := strcmpAux a.chars b.chars

/-- Scan behind `strchr`: the offset of the first `c`, the terminator counting as a character. -/
def strchrAux : List Char → Char → Nat → Option Nat
  | [], c, i => if c = '\x00' then some i else none
  | d :: ds, c, i => if d = c then some i else strchrAux ds c (i + 1)

/-- The C function `strchr`: `none` is the NULL result, `some i` a pointer to `s + i`. -/
def strchr (s : CStr) (c : Char) : Option Nat := strchrAux s.chars c 0

/-- The C function `strcpy` into a buffer of `size` chars: the buffer then
holds the source string, which takes `strlen src + 1` chars; `none` when that
does not fit, where the C function writes past the buffer. -/
def strcpy (size : Nat) (_dst src : CStr) : Option CStr :=
  if strlen src + 1 ≤ size then some src else none

/-- The C function `strcat` onto a buffer of `size` chars: the source is
appended, the result takes `strlen dst + strlen src + 1` chars; `none` when
that does not fit, where the C function writes past the buffer. -/
def strcat (size : Nat) (dst src : CStr) : Option CStr :=
  if strlen dst + strlen src + 1 ≤ size then some (dst.append src) else none

/-! ## `rtda/ma/jclass.h` -/

/-- The scalar and string members of `struct jclass`; members that point to
other entities (class object, loader, super class, member tables, constant
pool) play no part in the functions embedded here and are left out. -/
structure jclass where
  access_flags : Nat
  magic : Nat
  minor_version : Nat
  major_version : Nat
  pkg_name : CStr
  class_name : CStr
  inited : Bool
  interfaces_count : Int
  methods_count : Int
  fields_count : Int
  instance_fields_count : Int
  static_fields_count : Int
  source_file_name : CStr

/-- The string literal `"java/lang/String"`. -/
def lit_java_lang_String : CStr := ⟨"java/lang/String".toList, by decide⟩
/-- The string literal `"ZBCSIFJD"`. -/
def lit_ZBCSIFJD : CStr := ⟨"ZBCSIFJD".toList, by decide⟩
/-- The string literal `"[Z"`. -/
def lit_arrZ : CStr := ⟨"[Z".toList, by decide⟩
/-- The string literal `"[B"`. -/
def lit_arrB : CStr := ⟨"[B".toList, by decide⟩
/-- The string literal `"[C"`. -/
def lit_arrC : CStr := ⟨"[C".toList, by decide⟩
/-- The string literal `"[S"`. -/
def lit_arrS : CStr := ⟨"[S".toList, by decide⟩
/-- The string literal `"[I"`. -/
def lit_arrI : CStr := ⟨"[I".toList, by decide⟩
/-- The string literal `"[F"`. -/
def lit_arrF : CStr := ⟨"[F".toList, by decide⟩
/-- The string literal `"[J"`. -/
def lit_arrJ : CStr := ⟨"[J".toList, by decide⟩
/-- The string literal `"[D"`. -/
def lit_arrD : CStr := ⟨"[D".toList, by decide⟩

/-- The function `is_array`: `c != NULL && c->class_name[0] == '['`. -/
def is_array (c : Option jclass) : Bool :=
  match c with
  | none => false
  | some j => j.class_name.at 0 == '['

/-- The function `is_string`: `c != NULL && strcmp(c->class_name, "java/lang/String") == 0`. -/
def is_string (c : Option jclass) : Bool :=
  match c with
  | none => false
  | some j => strcmp j.class_name lit_java_lang_String == 0

/-- The function `is_primitive_array`: the name has length 2, starts with `'['` and its
second character is found by `strchr` in `"ZBCSIFJD"`. -/
def is_primitive_array (c : jclass) : Bool :=
  if strlen c.class_name != 2 || c.class_name.at 0 != '[' then
    false
  else
    (strchr lit_ZBCSIFJD (c.class_name.at 1)).isSome

/-- The function `is_one_dimension_array`. -/
def is_one_dimension_array (c : jclass) : Bool :=
  is_primitive_array c
    || (decide (strlen c.class_name ≥ 2) && c.class_name.at 0 == '[' && c.class_name.at 1 != '[')

/-- The function `is_one_dimension_ref_array`. -/
def is_one_dimension_ref_array (c : jclass) : Bool :=
  is_one_dimension_array c && !is_primitive_array c

/-- The function `is_ref_array`: `!is_primitive_array(c)`. -/
def is_ref_array (c : jclass) : Bool := !is_primitive_array c

/-- The function `is_multi_array`: `is_array(c) && !is_one_dimension_array(c)`; the
conjunction short-circuits on a NULL `c`, which `is_array` rejects. -/
def is_multi_array (c : Option jclass) : Bool :=
  match c with
  | none => false
  | some j => is_array (some j) && !is_one_dimension_array j

/-- The function `is_bool_array`. -/
def is_bool_array (c : jclass) : Bool := strcmp c.class_name lit_arrZ == 0
/-- The function `is_byte_array`. -/
def is_byte_array (c : jclass) : Bool := strcmp c.class_name lit_arrB == 0
/-- The function `is_bool_or_byte_array`. -/
def is_bool_or_byte_array (c : jclass) : Bool := is_bool_array c || is_byte_array c
/-- The function `is_char_array`. -/
def is_char_array (c : jclass) : Bool := strcmp c.class_name lit_arrC == 0
/-- The function `is_short_array`. -/
def is_short_array (c : jclass) : Bool := strcmp c.class_name lit_arrS == 0
/-- The function `is_int_array`. -/
def is_int_array (c : jclass) : Bool := strcmp c.class_name lit_arrI == 0
/-- The function `is_float_array`. -/
def is_float_array (c : jclass) : Bool := strcmp c.class_name lit_arrF == 0
/-- The function `is_long_array`. -/
def is_long_array (c : jclass) : Bool := strcmp c.class_name lit_arrJ == 0
/-- The function `is_double_array`. -/
def is_double_array (c : jclass) : Bool := strcmp c.class_name lit_arrD == 0

/-- A class entity that has the given name and is otherwise zero-initialised. -/
def jclass.named (n : CStr) : jclass :=
  { access_flags := 0, magic := 0, minor_version := 0, major_version := 0,
    pkg_name := CStr.empty, class_name := n, inited := false,
    interfaces_count := 0, methods_count := 0, fields_count := 0,
    instance_fields_count := 0, static_fields_count := 0,
    source_file_name := CStr.empty }

/-! ## `main.c` -/

/-- The `char` buffers of process scope that `main.c` reads and writes:
`bootstrap_classpath` and `extension_classpath` (declared in `jvm.h`) and the
file-local `main_class`. -/
structure Globals where
  bootstrap_classpath : CStr
  extension_classpath : CStr
  main_class : CStr
  deriving DecidableEq

/-- The sizes of these buffers, in chars.  `main_class` has `FILENAME_MAX`
chars, a constant of the platform's `stdio.h`; the other two are declared in
`jvm.h`, which is not among the sources. -/
structure BufferSizes where
  main_class : Nat
  bootstrap_classpath : Nat
  extension_classpath : Nat

/-- Calls that leave `main.c`, in the order they are made. -/
inductive Call where
  | jvm_abort (msg : CStr)
  | register_all_native_methods
  | start_jvm (class_name : CStr)
  deriving DecidableEq

/-- The string literal `"-bcp"`. -/
def lit_bcp : CStr := ⟨"-bcp".toList, by decide⟩
/-- The string literal `"error\n"`. -/
def lit_error : CStr := ⟨"error\n".toList, by decide⟩
/-- The string literal `"JAVA_HOME"`. -/
def lit_JAVA_HOME : CStr := ⟨"JAVA_HOME".toList, by decide⟩
/-- The string literal `"/jre/lib"`. -/
def lit_jre_lib : CStr := ⟨"/jre/lib".toList, by decide⟩
/-- The string literal `"/ext"`. -/
def lit_ext : CStr := ⟨"/ext".toList, by decide⟩
/-- The string literal `"HelloWorld"`. -/
def lit_HelloWorld : CStr := ⟨"HelloWorld".toList, by decide⟩

/-- The `for` loop of `parse_args` over the arguments from index `i` on.  The
result is `none` when a `strcpy` does not fit its buffer; otherwise the flag
is `false` when the loop body executed `return false`. -/
def parse_args_loop (S : BufferSizes) : List CStr → Globals → Option (Bool × Globals)
  | [], g => some (true, g)
  | name :: rest, g =>
    if name.at 0 == '-' then
      if strcmp name lit_bcp == 0 then
        match rest with
        | [] => some (false, g)
        | value :: rest' =>
          match strcpy S.bootstrap_classpath g.bootstrap_classpath value with
          | none => none
          | some b => parse_args_loop S rest' { g with bootstrap_classpath := b }
      else
        some (false, g)
    else
      match strcpy S.main_class g.main_class name with
      | none => none
      | some m => parse_args_loop S rest { g with main_class := m }

/-- The function `parse_args(argc, argv)` with `argc` the length of `argv`: the loop starts
at index 1, then `main_class` must be non-empty.  Yields the result and the
buffers as the call leaves them, or `none` when a copy overflowed. -/
def parse_args (S : BufferSizes) (argv : List CStr) (g : Globals) : Option (Bool × Globals) :=
  match parse_args_loop S (argv.drop 1) g with
  | none => none
  | some r =>
    if !r.1 then
      some (false, r.2)
    else if r.2.main_class.at 0 == '\x00' then
      some (false, r.2)
    else
      some (true, r.2)

/-- What a run of `main` leaves behind: the value it returns (`none` when
`main` did not return: the process ended inside `jvm_abort`, or the run was
cut at an overflowing copy), the outgoing calls in order, the buffers as the
last of these calls sees them, and whether a copy overflowed. -/
structure Outcome where
  ret : Option Int
  calls : List Call
  globals : Globals
  overflow : Bool

/-- A run cut at a copy that does not fit its buffer, before any outgoing call. -/
def Outcome.cut (g : Globals) : Outcome :=
  { ret := none, calls := [], globals := g, overflow := true }

/-- The function `test()`: a single call `start_jvm("HelloWorld")`. -/
def test (calls : List Call) : List Call :=
  calls ++ [Call.start_jvm lit_HelloWorld]

/-- The last part of `main`, from `register_all_native_methods()` to `return 0`. -/
def main_start (g : Globals) : Outcome :=
  { ret := some 0,
    calls := test [Call.register_all_native_methods],
    globals := g,
    overflow := false }

/-- The part of `main` from the test of `extension_classpath` on. -/
def main_extension (S : BufferSizes) (g : Globals) : Outcome :=
  if g.extension_classpath.at 0 == '\x00' then
    match strcpy S.extension_classpath g.extension_classpath g.bootstrap_classpath with
    | none => Outcome.cut g
    | some e =>
      match strcat S.extension_classpath e lit_ext with
      | none => Outcome.cut { g with extension_classpath := e }
      | some e2 => main_start { g with extension_classpath := e2 }
  else
    main_start g

/-- The function `main(argc, argv)`.  `S` gives the buffer sizes, `getenv` is the
environment; `abort_returns` tells whether `jvm_abort` (declared outside these
sources) returns to its caller. -/
def main (S : BufferSizes) (abort_returns : Bool) (getenv : CStr → Option CStr)
    (argv : List CStr) (g : Globals) : Outcome :=
  match parse_args S argv g with
  | none => Outcome.cut g
  | some p =>
    if !p.1 then
      { ret := if abort_returns then some (-1) else none,
        calls := [Call.jvm_abort lit_error],
        globals := p.2,
        overflow := false }
    else if p.2.bootstrap_classpath.at 0 == '\x00' then
      match getenv lit_JAVA_HOME with
      | none => { ret := some (-1), calls := [], globals := p.2, overflow := false }
      | some java_home =>
        match strcpy S.bootstrap_classpath p.2.bootstrap_classpath java_home with
        | none => Outcome.cut p.2
        | some b =>
          match strcat S.bootstrap_classpath b lit_jre_lib with
          | none => Outcome.cut { p.2 with bootstrap_classpath := b }
          | some b2 => main_extension S { p.2 with bootstrap_classpath := b2 }
    else
      main_extension S p.2

/-- All buffers zero-initialised, as at process start. -/
def Globals.zero : Globals :=
  { bootstrap_classpath := CStr.empty, extension_classpath := CStr.empty,
    main_class := CStr.empty }

/-! ### The command line, described independently of the parsing loop -/

/-- An argument begins with `'-'`. -/
def beginsWithDash (a : CStr) : Prop := a.chars.head? = some '-'

instance (a : CStr) : Decidable (beginsWithDash a) := by
  unfold beginsWithDash; infer_instance

/-- The arguments met in option position when scanning left to right, each
with a flag telling whether another argument follows it.  An argument that
directly follows a `"-bcp"` in option position is that option's value and is
not itself in option position; the Boolean tells whether the head of the list
is such a value. -/
def optionPositions : Bool → List CStr → List (CStr × Bool)
  | _, [] => []
  | true, _ :: rest => optionPositions false rest
  | false, a :: rest => (a, !rest.isEmpty) :: optionPositions (decide (a = lit_bcp)) rest

/-- The values of the `"-bcp"` options, in order. -/
def bcpValues : Bool → List CStr → List CStr
  | _, [] => []
  | true, v :: rest => v :: bcpValues false rest
  | false, a :: rest => bcpValues (decide (a = lit_bcp)) rest

/-- The positional arguments: those in option position that do not begin with `'-'`. -/
def positionals (args : List CStr) : List CStr :=
  ((optionPositions false args).filter (fun p => !decide (beginsWithDash p.1))).map Prod.fst

/-- The strings that `main` copies after parsing fit their buffers, given the
bootstrap class path `b` in use: when `extension_classpath` is empty, `b`
followed by `"/ext"` is written to it. -/
def extensionFits (S : BufferSizes) (g : Globals) (b : CStr) : Prop :=
  g.extension_classpath ≠ CStr.empty ∨
    strlen b + strlen lit_ext + 1 ≤ S.extension_classpath

instance (S : BufferSizes) (g : Globals) (b : CStr) : Decidable (extensionFits S g b) := by
  unfold extensionFits; infer_instance

/-- The environment in which only `JAVA_HOME` is set, to `h`. -/
def envJavaHome (h : CStr) : CStr → Option CStr :=
  fun n => if n = lit_JAVA_HOME then some h else none

/-- The environment with no variable set. -/
def envNone : CStr → Option CStr := fun _ => none

/-! ### Sample command lines and environments -/

/-- The program name `"jvm"`, as `argv[0]`. -/
def arg_jvm : CStr := ⟨"jvm".toList, by decide⟩
/-- A main-class argument `"Foo"`. -/
def arg_Foo : CStr := ⟨"Foo".toList, by decide⟩
/-- A main-class argument `"Bar"`. -/
def arg_Bar : CStr := ⟨"Bar".toList, by decide⟩
/-- A class-path value `"/opt/jdk/jre/lib"`. -/
def arg_rt : CStr := ⟨"/opt/jdk/jre/lib".toList, by decide⟩
/-- A value of `JAVA_HOME`, `"/opt/jdk"`. -/
def dir_jdk : CStr := ⟨"/opt/jdk".toList, by decide⟩

/-- The command line `jvm -bcp /opt/jdk/jre/lib Foo`. -/
def argv_bcp_Foo : List CStr := [arg_jvm, lit_bcp, arg_rt, arg_Foo]
/-- The command line `jvm Bar -bcp /opt/jdk/jre/lib`. -/
def argv_Bar_bcp : List CStr := [arg_jvm, arg_Bar, lit_bcp, arg_rt]
/-- The command line `jvm Foo`. -/
def argv_Foo : List CStr := [arg_jvm, arg_Foo]
/-- The command line `jvm -bcp "" Foo`, whose class-path value is the empty string. -/
def argv_bcp_empty_Foo : List CStr := [arg_jvm, lit_bcp, CStr.empty, arg_Foo]

/-- Buffer sizes of a sample platform: `FILENAME_MAX` is 4096, and the two
class-path buffers are taken to have that size as well. -/
def sample_sizes : BufferSizes :=
  { main_class := 4096, bootstrap_classpath := 4096, extension_classpath := 4096 }

/-- A main-class argument of 4096 characters, one more than a buffer of
`FILENAME_MAX` = 4096 chars holds next to its terminator. -/
def arg_long : CStr :=
  ⟨List.replicate 4096 'A', by
    intro c hc
    rw [List.eq_of_mem_replicate hc]
    decide⟩

/-- The command line `jvm AAA...A` with the 4096-character main-class argument. -/
def argv_long : List CStr := [arg_jvm, arg_long]

/-! ## The native bridge -/

/-- The functions that the registration tables of the two native source files
point to; `external` stands for a function defined outside these sources. -/
inductive NativeFn where
  | doPrivileged
  | doPrivileged1
  | doPrivileged2
  | doPrivileged3
  | getStackAccessControlContext
  | getInheritedAccessControlContext
  | setErrorMode
  | external (id : Nat)
  deriving DecidableEq

/-- The struct `JNINativeMethod`: a method name, a descriptor and a function pointer. -/
structure JNINativeMethod where
  name : CStr
  descriptor : CStr
  func : NativeFn

/-- One row of the native bridge's table. -/
structure RegistryEntry where
  class_name : CStr
  method_name : CStr
  descriptor : CStr
  callable : NativeFn

/-- Modelled from the spec: the native bridge's table (`native/registry.h` and
its implementation are not among the sources), a mapping keyed by (declaring
class's fully-qualified name, method name, method descriptor) to a callable,
kept as the rows in registration order. -/
abbrev Registry := List RegistryEntry

/-- Modelled from the spec: `register(class_name, method_name, descriptor,
callable)` of the native bridge adds one row. -/
def register (r : Registry) (class_name method_name descriptor : CStr)
    (callable : NativeFn) : Registry :=
  r ++ [{ class_name := class_name, method_name := method_name,
          descriptor := descriptor, callable := callable }]

/-- Modelled from the spec: `lookup(class_name, method_name, descriptor) ->
callable | absent` of the native bridge, the callable of the first row with
that key. -/
def lookup (r : Registry) (class_name method_name descriptor : CStr) : Option NativeFn :=
  (r.find? (fun e => decide (e.class_name = class_name) && decide (e.method_name = method_name)
    && decide (e.descriptor = descriptor))).map RegistryEntry.callable

/-- Modelled from the spec: `registerNatives(class_name, methods, n)` (declared
in `jni_inner.h`, not among the sources) registers the `n` rows of `methods`,
in order, under `class_name`; `n` is `ARRAY_LENGTH(methods)` at both call
sites. -/
def registerNatives (r : Registry) (class_name : CStr) (methods : List JNINativeMethod) :
    Registry :=
  methods.foldl (fun acc m => register acc class_name m.name m.descriptor m.func) r

/-! ### `native/java/security/AccessController.cpp` -/

/-- The macro `ACC`: `"Ljava/security/AccessControlContext;"`. -/
def ACC : CStr := ⟨"Ljava/security/AccessControlContext;".toList, by decide⟩

/-- The string literal `"()"`. -/
def lit_unit : CStr := ⟨"()".toList, by decide⟩
/-- The string literal `")"`. -/
def lit_close : CStr := ⟨")".toList, by decide⟩
/-- The string literal `"(Ljava/security/PrivilegedAction;)"`. -/
def lit_PrivilegedAction_close : CStr :=
  ⟨"(Ljava/security/PrivilegedAction;)".toList, by decide⟩
/-- The string literal `"(Ljava/security/PrivilegedAction;"`. -/
def lit_PrivilegedAction : CStr := ⟨"(Ljava/security/PrivilegedAction;".toList, by decide⟩
/-- The string literal `"(Ljava/security/PrivilegedExceptionAction;)"`. -/
def lit_PrivilegedExceptionAction_close : CStr :=
  ⟨"(Ljava/security/PrivilegedExceptionAction;)".toList, by decide⟩
/-- The string literal `"(Ljava/security/PrivilegedExceptionAction;"`. -/
def lit_PrivilegedExceptionAction : CStr :=
  ⟨"(Ljava/security/PrivilegedExceptionAction;".toList, by decide⟩
/-- The string literal `"doPrivileged"`. -/
def lit_doPrivileged : CStr := ⟨"doPrivileged".toList, by decide⟩
/-- The string literal `"getStackAccessControlContext"`. -/
def lit_getStackAccessControlContext : CStr :=
  ⟨"getStackAccessControlContext".toList, by decide⟩
/-- The string literal `"getInheritedAccessControlContext"`. -/
def lit_getInheritedAccessControlContext : CStr :=
  ⟨"getInheritedAccessControlContext".toList, by decide⟩
/-- The string literal `"java/security/AccessController"`. -/
def lit_AccessController : CStr := ⟨"java/security/AccessController".toList, by decide⟩
/-- The string literal `"registerNatives"`. -/
def lit_registerNatives : CStr := ⟨"registerNatives".toList, by decide⟩

/-- Descriptor of `doPrivileged(PrivilegedAction)`:
`"(Ljava/security/PrivilegedAction;)" OBJ`. -/
def desc_doPrivileged (OBJ : CStr) : CStr := lit_PrivilegedAction_close.append OBJ
/-- Descriptor of `doPrivileged(PrivilegedAction, AccessControlContext)`:
`"(Ljava/security/PrivilegedAction;" ACC ")" OBJ`. -/
def desc_doPrivileged1 (OBJ : CStr) : CStr :=
  ((lit_PrivilegedAction.append ACC).append lit_close).append OBJ
/-- Descriptor of `doPrivileged(PrivilegedExceptionAction)`:
`"(Ljava/security/PrivilegedExceptionAction;)" OBJ`. -/
def desc_doPrivileged2 (OBJ : CStr) : CStr := lit_PrivilegedExceptionAction_close.append OBJ
/-- Descriptor of `doPrivileged(PrivilegedExceptionAction, AccessControlContext)`:
`"(Ljava/security/PrivilegedExceptionAction;" ACC ")" OBJ`. -/
def desc_doPrivileged3 (OBJ : CStr) : CStr :=
  ((lit_PrivilegedExceptionAction.append ACC).append lit_close).append OBJ

/-- The table `methods[]` of `AccessController.cpp`.  The macros `OBJ` and
`JNINativeMethod_registerNatives` come from `jni_inner.h`, which is not among
the sources: `OBJ` is the string the former expands to, `rn` the row the
latter expands to. -/
def AccessController.methods (OBJ : CStr) (rn : JNINativeMethod) : List JNINativeMethod :=
  [ rn,
    { name := lit_getStackAccessControlContext, descriptor := lit_unit.append ACC,
      func := NativeFn.getStackAccessControlContext },
    { name := lit_getInheritedAccessControlContext, descriptor := lit_unit.append ACC,
      func := NativeFn.getInheritedAccessControlContext },
    { name := lit_doPrivileged, descriptor := desc_doPrivileged OBJ,
      func := NativeFn.doPrivileged },
    { name := lit_doPrivileged, descriptor := desc_doPrivileged1 OBJ,
      func := NativeFn.doPrivileged1 },
    { name := lit_doPrivileged, descriptor := desc_doPrivileged2 OBJ,
      func := NativeFn.doPrivileged2 },
    { name := lit_doPrivileged, descriptor := desc_doPrivileged3 OBJ,
      func := NativeFn.doPrivileged3 } ]

/-- The function `java_security_AccessController_registerNatives()`, on the table `r`. -/
def java_security_AccessController_registerNatives (OBJ : CStr) (rn : JNINativeMethod)
    (r : Registry) : Registry :=
  registerNatives r lit_AccessController (AccessController.methods OBJ rn)

/-- The (name, descriptor) key of a table row. -/
def JNINativeMethod.key (m : JNINativeMethod) : CStr × CStr := (m.name, m.descriptor)

/-! ### `native/sun/io/Win32ErrorMode.cpp` -/

/-- The string literal `"setErrorMode"`. -/
def lit_setErrorMode : CStr := ⟨"setErrorMode".toList, by decide⟩
/-- The string literal `"(J)J"`. -/
def lit_J_J : CStr := ⟨"(J)J".toList, by decide⟩
/-- The string literal `"sun/io/Win32ErrorMode"`. -/
def lit_Win32ErrorMode : CStr := ⟨"sun/io/Win32ErrorMode".toList, by decide⟩

/-- The function `setErrorMode`: returns 0. -/
def setErrorMode (_l : Int) : Int := 0

/-- The table `methods[]` of `Win32ErrorMode.cpp`. -/
def Win32ErrorMode.methods (rn : JNINativeMethod) : List JNINativeMethod :=
  [ rn,
    { name := lit_setErrorMode, descriptor := lit_J_J, func := NativeFn.setErrorMode } ]

/-- The function `sun_io_Win32ErrorMode_registerNatives()`, on the table `r`. -/
def sun_io_Win32ErrorMode_registerNatives (rn : JNINativeMethod) (r : Registry) : Registry :=
  registerNatives r lit_Win32ErrorMode (Win32ErrorMode.methods rn)

/-- A sample expansion of `OBJ`: `"Ljava/lang/Object;"`. -/
def sample_OBJ : CStr := ⟨"Ljava/lang/Object;".toList, by decide⟩
/-- A sample expansion of `JNINativeMethod_registerNatives`. -/
def sample_rn : JNINativeMethod :=
  { name := lit_registerNatives, descriptor := ⟨"()V".toList, by decide⟩,
    func := NativeFn.external 0 }

/-! ### The natives of `AccessController.cpp` -/

/-- A method entity, as far as the natives use it: owning class, name and descriptor. -/
structure Method where
  class_name : CStr
  name : CStr
  descriptor : CStr
  deriving DecidableEq

/-- A class entity as `metadata/class.h` has it, as far as the natives use it:
its name and its declared methods. -/
structure Class where
  class_name : CStr
  methods : List Method

/-- An object: its exact class and its identity. -/
structure Object where
  clazz : Class
  id : Nat

/-- The type `jobject`: a reference to an object, or null. -/
abbrev jobject := Option Object

/-- Modelled from the spec: `Class::getDeclaredMethod(name, descriptor)`
(`metadata/class.h` is not among the sources), the exact-class lookup of a
declared method, first match by (name, descriptor); the null pointer when the
class declares none. -/
def Class.getDeclaredMethod (c : Class) (name descriptor : CStr) : Option Method :=
  c.methods.find? (fun m => decide (m.name = name) && decide (m.descriptor = descriptor))

/-- The interpreter the natives call back into (`interpreter/interpreter.h`
and `slot.h` are not among the sources): `execJavaFunc` runs a method on an
argument list against the interpreter state `σ` and yields a slot, `getRef`
is `slot::getRef`. -/
structure Interpreter (σ Slot : Type) where
  execJavaFunc : Option Method → List jobject → σ → Slot × σ
  getRef : Slot → jobject

/-- The interpreter state together with the record of the calls of
`execJavaFunc` made so far, each with its method and argument list. -/
structure World (σ : Type) where
  vm : σ
  execJavaFunc_calls : List (Option Method × List jobject)

/-- A call `execJavaFunc(m, args)`: runs the interpreter and records the call. -/
def World.execJavaFunc {σ Slot : Type} (I : Interpreter σ Slot) (m : Option Method)
    (args : List jobject) (w : World σ) : Slot × World σ :=
  ((I.execJavaFunc m args w.vm).1,
    { vm := (I.execJavaFunc m args w.vm).2,
      execJavaFunc_calls := w.execJavaFunc_calls ++ [(m, args)] })

/-- The function `doPrivileged(action)`: looks up the method `S(run)`, `S(___java_lang_Object)`
declared by the class of `action`, runs it on `{action}` and returns the
reference in the resulting slot.  `S_run` and `S_obj` are the two symbols
(`symbol.h` is not among the sources). -/
def doPrivileged {σ Slot : Type} (I : Interpreter σ Slot) (S_run S_obj : CStr)
    (action : Object) (w : World σ) : jobject × World σ :=
  let m := action.clazz.getDeclaredMethod S_run S_obj
  let r := World.execJavaFunc I m [some action] w
  (I.getRef r.1, r.2)

/-- The function `doPrivileged1(action, context)`: `return doPrivileged(action)`. -/
def doPrivileged1 {σ Slot : Type} (I : Interpreter σ Slot) (S_run S_obj : CStr)
    (action : Object) (_context : jobject) (w : World σ) : jobject × World σ :=
  doPrivileged I S_run S_obj action w

/-- The function `doPrivileged2(action)`: `return doPrivileged(action)`. -/
def doPrivileged2 {σ Slot : Type} (I : Interpreter σ Slot) (S_run S_obj : CStr)
    (action : Object) (w : World σ) : jobject × World σ :=
  doPrivileged I S_run S_obj action w

/-- The function `doPrivileged3(action, context)`: `return doPrivileged(action)`. -/
def doPrivileged3 {σ Slot : Type} (I : Interpreter σ Slot) (S_run S_obj : CStr)
    (action : Object) (_context : jobject) (w : World σ) : jobject × World σ :=
  doPrivileged I S_run S_obj action w

/-- The function `getStackAccessControlContext()`: returns the null reference. -/
def getStackAccessControlContext : jobject := none

/-- The symbol `"run"`. -/
def sym_run : CStr := ⟨"run".toList, by decide⟩
/-- The descriptor `"()Ljava/lang/Object;"`. -/
def sym_obj : CStr := ⟨"()Ljava/lang/Object;".toList, by decide⟩
/-- The `run` method of a sample action class. -/
def sample_run : Method :=
  { class_name := arg_Foo, name := sym_run, descriptor := sym_obj }
/-- A sample action class declaring `run`. -/
def sample_class : Class := { class_name := arg_Foo, methods := [sample_run] }
/-- A sample action object. -/
def sample_action : Object := { clazz := sample_class, id := 1 }
/-- A sample context object. -/
def sample_context : Object := { clazz := { class_name := arg_Bar, methods := [] }, id := 2 }
/-- A sample interpreter: counts its runs and returns its first argument. -/
def sample_interp : Interpreter Nat jobject :=
  { execJavaFunc := fun _ args n => (args.headD none, n + 1), getRef := id }

/-! ## Lifecycle states, as the specification names them -/

/-- The lifecycle states of a class in the specification's state machine. -/
inductive ClassState where
  | UNLOADED
  | LOADED
  | LINKED
  | INITIALIZING
  | INITIALIZED
  | INIT_FAILED
  deriving DecidableEq

/-- The four states that the initialization-state flag is said to tell apart. -/
def flaggedStates : List ClassState :=
  [ClassState.INIT_FAILED, ClassState.INITIALIZING, ClassState.INITIALIZED, ClassState.LINKED]

/-! # Theorems -/

/-! ## C strings and `rtda/ma/jclass.h` -/

theorem toNat_ne_zero_of_ne_nul (d : Char) (hd : d ≠ '\x00') : (d.toNat : Int) ≠ 0 := by
  have : d.toNat ≠ 0 := by
    intro h
    apply hd
    apply Char.ext
    apply UInt32.ext
    simpa [Char.toNat] using h
  omega

theorem toNat_sub_ne_zero (c d : Char) (h : c ≠ d) : (c.toNat : Int) - (d.toNat : Int) ≠ 0 := by
  have : c.toNat ≠ d.toNat := by
    intro e
    apply h
    apply Char.ext
    apply UInt32.ext
    simpa [Char.toNat] using e
  omega

theorem strcmpAux_eq_zero_iff (a b : List Char) (ha : ∀ c ∈ a, c ≠ '\x00')
    (hb : ∀ c ∈ b, c ≠ '\x00') : strcmpAux a b = 0 ↔ a = b := by
  induction a generalizing b with
  | nil =>
    cases b with
    | nil => simp [strcmpAux]
    | cons d ds =>
      have := toNat_ne_zero_of_ne_nul d (hb d (by simp))
      simp [strcmpAux]
      omega
  | cons c cs ih =>
    cases b with
    | nil =>
      have := toNat_ne_zero_of_ne_nul c (ha c (by simp))
      simp [strcmpAux]
      omega
    | cons d ds =>
      by_cases hcd : c = d
      · subst hcd
        have := ih ds (fun x hx => ha x (by simp [hx])) (fun x hx => hb x (by simp [hx]))
        simp [strcmpAux, this]
      · have := toNat_sub_ne_zero c d hcd
        simp [strcmpAux, hcd, this]

theorem CStr.ext_chars {a b : CStr} (h : a.chars = b.chars) : a = b := by
  cases a; cases b; simp at h; simp [h]

theorem strcmp_eq_zero_iff (a b : CStr) : strcmp a b = 0 ↔ a = b := by
  unfold strcmp
  rw [strcmpAux_eq_zero_iff a.chars b.chars a.nonul b.nonul]
  constructor
  · exact CStr.ext_chars
  · intro h; rw [h]

theorem strcmp_beq_zero (a b : CStr) : (strcmp a b == 0) = decide (a = b) := by
  by_cases h : a = b
  · simp [h, (strcmp_eq_zero_iff b b).mpr rfl]
  · have : strcmp a b ≠ 0 := fun e => h ((strcmp_eq_zero_iff a b).mp e)
    simp [h, this]

theorem strchr_ZBCSIFJD (c : Char) (hc : c ≠ '\x00') :
    (strchr lit_ZBCSIFJD c).isSome = true ↔
      c = 'Z' ∨ c = 'B' ∨ c = 'C' ∨ c = 'S' ∨ c = 'I' ∨ c = 'F' ∨ c = 'J' ∨ c = 'D' := by
  simp only [strchr, lit_ZBCSIFJD]
  have : "ZBCSIFJD".toList = ['Z','B','C','S','I','F','J','D'] := rfl
  rw [this]
  simp only [strchrAux]
  split_ifs with h1 h2 h3 h4 h5 h6 h7 h8
  all_goals first
    | (subst_vars; simp; done)
    | (simp only [Option.isSome_none, Bool.false_eq_true, false_iff]
       intro h
       rcases h with h | h | h | h | h | h | h | h <;> exact absurd h.symm (by assumption))


theorem is_primitive_array_chars (c : jclass) :
    is_primitive_array c = true ↔
      ∃ x, c.class_name.chars = ['[', x] ∧
        (x = 'Z' ∨ x = 'B' ∨ x = 'C' ∨ x = 'S' ∨ x = 'I' ∨ x = 'F' ∨ x = 'J' ∨ x = 'D') := by
  rcases hcn : c.class_name with ⟨chars, hn⟩
  unfold is_primitive_array
  rw [hcn]
  match chars, hn with
  | [], _ => simp [strlen]
  | [a], _ => simp [strlen]
  | [a, b], hn =>
    have hb : b ≠ '\x00' := hn b (by simp)
    by_cases ha : a = '['
    · subst ha
      simp [strlen, CStr.at, strchr_ZBCSIFJD b hb]
    · simp [strlen, CStr.at, ha]
  | a :: b :: d :: r, _ => simp [strlen]

theorem strcmp_beq_zero_iff_chars (c : jclass) (l : CStr) :
    (strcmp c.class_name l == 0) = true ↔ c.class_name.chars = l.chars := by
  rw [strcmp_beq_zero]
  simp only [decide_eq_true_eq]
  constructor
  · intro h; rw [h]
  · exact CStr.ext_chars

/-- C6: `is_primitive_array(c)` is true exactly when the class name is one of
`"[Z"`, `"[B"`, `"[C"`, `"[S"`, `"[I"`, `"[F"`, `"[J"`, `"[D"`, that is, exactly
when one of `is_bool_array` .. `is_double_array` holds; and every such class is
a one-dimensional array. -/
theorem is_primitive_array_iff (c : jclass) :
    (is_primitive_array c = true ↔
      (c.class_name = lit_arrZ ∨ c.class_name = lit_arrB ∨ c.class_name = lit_arrC ∨
       c.class_name = lit_arrS ∨ c.class_name = lit_arrI ∨ c.class_name = lit_arrF ∨
       c.class_name = lit_arrJ ∨ c.class_name = lit_arrD)) ∧
    (is_primitive_array c =
      (is_bool_array c || is_byte_array c || is_char_array c || is_short_array c ||
       is_int_array c || is_float_array c || is_long_array c || is_double_array c)) ∧
    (is_primitive_array c = true → is_one_dimension_array c = true) := by
  have key : is_primitive_array c = true ↔
      (c.class_name = lit_arrZ ∨ c.class_name = lit_arrB ∨ c.class_name = lit_arrC ∨
       c.class_name = lit_arrS ∨ c.class_name = lit_arrI ∨ c.class_name = lit_arrF ∨
       c.class_name = lit_arrJ ∨ c.class_name = lit_arrD) := by
    rw [is_primitive_array_chars]
    constructor
    · rintro ⟨x, hx, h | h | h | h | h | h | h | h⟩ <;> subst h
      · exact Or.inl (CStr.ext_chars hx)
      · exact Or.inr (Or.inl (CStr.ext_chars hx))
      · exact Or.inr (Or.inr (Or.inl (CStr.ext_chars hx)))
      · exact Or.inr (Or.inr (Or.inr (Or.inl (CStr.ext_chars hx))))
      · exact Or.inr (Or.inr (Or.inr (Or.inr (Or.inl (CStr.ext_chars hx)))))
      · exact Or.inr (Or.inr (Or.inr (Or.inr (Or.inr (Or.inl (CStr.ext_chars hx))))))
      · exact Or.inr (Or.inr (Or.inr (Or.inr (Or.inr (Or.inr (Or.inl (CStr.ext_chars hx)))))))
      · exact Or.inr (Or.inr (Or.inr (Or.inr (Or.inr (Or.inr (Or.inr (CStr.ext_chars hx)))))))
    · rintro (h | h | h | h | h | h | h | h) <;> rw [h]
      · exact ⟨'Z', rfl, by simp⟩
      · exact ⟨'B', rfl, by simp⟩
      · exact ⟨'C', rfl, by simp⟩
      · exact ⟨'S', rfl, by simp⟩
      · exact ⟨'I', rfl, by simp⟩
      · exact ⟨'F', rfl, by simp⟩
      · exact ⟨'J', rfl, by simp⟩
      · exact ⟨'D', rfl, by simp⟩
  refine ⟨key, ?_, ?_⟩
  · rw [Bool.eq_iff_iff, key]
    simp only [Bool.or_eq_true, is_bool_array, is_byte_array, is_char_array, is_short_array,
      is_int_array, is_float_array, is_long_array, is_double_array, strcmp_beq_zero,
      decide_eq_true_eq, or_assoc]
  · intro h
    simp [is_one_dimension_array, h]


theorem is_array_of_is_primitive_array (c : jclass) (h : is_primitive_array c = true) :
    is_array (some c) = true := by
  obtain ⟨x, hx, _⟩ := (is_primitive_array_chars c).mp h
  simp [is_array, CStr.at, hx]

theorem is_array_of_is_one_dimension_array (c : jclass) (h : is_one_dimension_array c = true) :
    is_array (some c) = true := by
  unfold is_one_dimension_array at h
  rcases Bool.or_eq_true _ _ ▸ h with h | h
  · exact is_array_of_is_primitive_array c h
  · simp only [Bool.and_eq_true] at h
    simpa [is_array] using h.1.2

/-- C9: for a class `c`, `is_array(c)` holds if and only if exactly one of
`is_primitive_array(c)`, `is_one_dimension_ref_array(c)` and `is_multi_array(c)`
holds; for a class that is not an array none of the three holds. -/
theorem array_predicates_partition (c : jclass) :
    (is_array (some c) = true ↔
      ((is_primitive_array c = true ∧ is_one_dimension_ref_array c = false ∧
          is_multi_array (some c) = false) ∨
       (is_primitive_array c = false ∧ is_one_dimension_ref_array c = true ∧
          is_multi_array (some c) = false) ∨
       (is_primitive_array c = false ∧ is_one_dimension_ref_array c = false ∧
          is_multi_array (some c) = true))) ∧
    (is_array (some c) = false →
      is_primitive_array c = false ∧ is_one_dimension_ref_array c = false ∧
        is_multi_array (some c) = false) := by
  have h1 := is_array_of_is_primitive_array c
  have h2 := is_array_of_is_one_dimension_array c
  have h3 : is_primitive_array c = true → is_one_dimension_array c = true := by
    intro h; simp [is_one_dimension_array, h]
  simp only [is_one_dimension_ref_array, is_multi_array]
  revert h1 h2 h3
  generalize is_array (some c) = a
  generalize is_primitive_array c = p
  generalize is_one_dimension_array c = o
  cases a <;> cases p <;> cases o <;> simp

/-- C5 at the class `java/lang/String`: the class is not an array and not a
primitive array, yet `is_ref_array` answers true. -/
theorem is_ref_array_non_array :
    is_ref_array (jclass.named lit_java_lang_String) = true ∧
      is_array (some (jclass.named lit_java_lang_String)) = false ∧
      is_primitive_array (jclass.named lit_java_lang_String) = false := by
  decide

/-- On array classes `is_ref_array` is the negation of `is_primitive_array`, and
a multi-dimensional array is a reference array. -/
theorem is_ref_array_on_arrays (c : jclass) :
    (is_array (some c) = true → 
      (is_ref_array c = true ↔ is_primitive_array c = false)) ∧
    (is_multi_array (some c) = true → is_ref_array c = true) := by
  refine ⟨fun _ => by simp [is_ref_array], ?_⟩
  intro h
  have h3 : is_primitive_array c = true → is_one_dimension_array c = true := by
    intro h; simp [is_one_dimension_array, h]
  simp only [is_multi_array, Bool.and_eq_true, Bool.not_eq_true'] at h
  cases hp : is_primitive_array c
  · simp [is_ref_array, hp]
  · rw [h3 hp] at h; simp at h


/-! ## `main.c` -/

theorem at_zero_eq_dash_iff (a : CStr) : (a.at 0 == '-') = true ↔ beginsWithDash a := by
  rcases a with ⟨chars, hn⟩
  cases chars with
  | nil => simp [CStr.at, beginsWithDash]
  | cons c cs => simp [CStr.at, beginsWithDash]

theorem at_zero_eq_nul_iff (a : CStr) : (a.at 0 == '\x00') = true ↔ a = CStr.empty := by
  rcases a with ⟨chars, hn⟩
  cases chars with
  | nil => simp [CStr.at, CStr.empty]
  | cons c cs =>
    have : c ≠ '\x00' := hn c (by simp)
    simp [CStr.at, CStr.empty, this]

theorem beginsWithDash_bcp : beginsWithDash lit_bcp := by decide

theorem strcpy_of_fits (size : Nat) (d s : CStr) (h : strlen s + 1 ≤ size) :
    strcpy size d s = some s := by
  simp [strcpy, h]

theorem strcpy_of_not_fits (size : Nat) (d s : CStr) (h : ¬ strlen s + 1 ≤ size) :
    strcpy size d s = none := by
  simp [strcpy, h]

theorem strcat_of_fits (size : Nat) (d s : CStr) (h : strlen d + strlen s + 1 ≤ size) :
    strcat size d s = some (d.append s) := by
  simp [strcat, h]

theorem strcat_of_not_fits (size : Nat) (d s : CStr) (h : ¬ strlen d + strlen s + 1 ≤ size) :
    strcat size d s = none := by
  simp [strcat, h]

theorem strlen_append (a b : CStr) : strlen (a.append b) = strlen a + strlen b := by
  simp [strlen, CStr.append]

theorem parse_args_loop_positional (S : BufferSizes) (a : CStr) (rest : List CStr)
    (g : Globals) (h : ¬ beginsWithDash a) (hf : strlen a + 1 ≤ S.main_class) :
    parse_args_loop S (a :: rest) g = parse_args_loop S rest { g with main_class := a } := by
  have hd2 : ¬ ((a.at 0 == '-') = true) := fun e => h ((at_zero_eq_dash_iff a).mp e)
  cases rest <;> simp [parse_args_loop, hd2, strcpy_of_fits _ _ _ hf]

/-- A positional argument that does not fit `main_class` overflows the buffer. -/
theorem parse_args_loop_positional_overflow (S : BufferSizes) (a : CStr) (rest : List CStr)
    (g : Globals) (h : ¬ beginsWithDash a) (hf : ¬ strlen a + 1 ≤ S.main_class) :
    parse_args_loop S (a :: rest) g = none := by
  have hd2 : ¬ ((a.at 0 == '-') = true) := fun e => h ((at_zero_eq_dash_iff a).mp e)
  cases rest <;> simp [parse_args_loop, hd2, strcpy_of_not_fits _ _ _ hf]

theorem parse_args_loop_unknown (S : BufferSizes) (a : CStr) (rest : List CStr) (g : Globals)
    (h : beginsWithDash a) (hb : a ≠ lit_bcp) :
    parse_args_loop S (a :: rest) g = some (false, g) := by
  cases rest <;> simp [parse_args_loop, (at_zero_eq_dash_iff a).mpr h, strcmp_beq_zero, hb]

theorem parse_args_loop_bcp_last (S : BufferSizes) (g : Globals) :
    parse_args_loop S [lit_bcp] g = some (false, g) := by
  simp [parse_args_loop, (at_zero_eq_dash_iff _).mpr beginsWithDash_bcp, strcmp_beq_zero]

theorem parse_args_loop_bcp_value (S : BufferSizes) (v : CStr) (rest : List CStr)
    (g : Globals) (hf : strlen v + 1 ≤ S.bootstrap_classpath) :
    parse_args_loop S (lit_bcp :: v :: rest) g =
      parse_args_loop S rest { g with bootstrap_classpath := v } := by
  simp [parse_args_loop, (at_zero_eq_dash_iff _).mpr beginsWithDash_bcp, strcmp_beq_zero,
    strcpy_of_fits _ _ _ hf]

/-- A `-bcp` value that does not fit `bootstrap_classpath` overflows the buffer. -/
theorem parse_args_loop_bcp_value_overflow (S : BufferSizes) (v : CStr) (rest : List CStr)
    (g : Globals) (hf : ¬ strlen v + 1 ≤ S.bootstrap_classpath) :
    parse_args_loop S (lit_bcp :: v :: rest) g = none := by
  simp [parse_args_loop, (at_zero_eq_dash_iff _).mpr beginsWithDash_bcp, strcmp_beq_zero,
    strcpy_of_not_fits _ _ _ hf]

theorem parse_args_loop_nil (S : BufferSizes) (g g' : Globals) :
    (parse_args_loop S [] g = some (true, g') ↔
      (∀ p ∈ optionPositions false [], beginsWithDash p.1 → p.1 = lit_bcp) ∧
      (∀ p ∈ optionPositions false [], p.1 = lit_bcp → p.2 = true) ∧
      (∀ p ∈ positionals [], strlen p + 1 ≤ S.main_class) ∧
      (∀ v ∈ bcpValues false [], strlen v + 1 ≤ S.bootstrap_classpath) ∧
      g' = { bootstrap_classpath := (bcpValues false []).getLast?.getD g.bootstrap_classpath,
             extension_classpath := g.extension_classpath,
             main_class := (positionals []).getLast?.getD g.main_class }) := by
  cases g
  simp only [parse_args_loop, optionPositions, positionals, bcpValues, List.not_mem_nil,
    false_implies, implies_true, true_and, List.filter_nil, List.map_nil, List.getLast?_nil,
    Option.getD_none, Option.some.injEq, Prod.mk.injEq]
  exact eq_comm

/-- The loop of `parse_args` against the description of the command line: it
runs to its end without `return false` and without overflow exactly when
every dash argument in option position is `"-bcp"` with a value, and every
positional argument and every `-bcp` value fits its buffer; the buffers then
hold the last positional argument and the last `-bcp` value. -/
theorem parse_args_loop_spec (S : BufferSizes) (n : Nat) :
    ∀ (l : List CStr) (g g' : Globals), l.length ≤ n →
      (parse_args_loop S l g = some (true, g') ↔
        (∀ p ∈ optionPositions false l, beginsWithDash p.1 → p.1 = lit_bcp) ∧
        (∀ p ∈ optionPositions false l, p.1 = lit_bcp → p.2 = true) ∧
        (∀ p ∈ positionals l, strlen p + 1 ≤ S.main_class) ∧
        (∀ v ∈ bcpValues false l, strlen v + 1 ≤ S.bootstrap_classpath) ∧
        g' = { bootstrap_classpath := (bcpValues false l).getLast?.getD g.bootstrap_classpath,
               extension_classpath := g.extension_classpath,
               main_class := (positionals l).getLast?.getD g.main_class }) := by
  induction n with
  | zero =>
    intro l g g' hl
    have : l = [] := List.length_eq_zero.mp (Nat.le_zero.mp hl)
    subst this
    exact parse_args_loop_nil S g g'
  | succ n ih =>
    intro l g g' hl
    match l, hl with
    | [], _ => exact parse_args_loop_nil S g g'
    | a :: rest, hl =>
      by_cases hd : beginsWithDash a
      · by_cases hb : a = lit_bcp
        · subst hb
          match rest, hl with
          | [], _ =>
            simp [parse_args_loop_bcp_last, optionPositions]
          | v :: rest', hl =>
            have hlen : rest'.length ≤ n := by simp at hl; omega
            by_cases hf : strlen v + 1 ≤ S.bootstrap_classpath
            · have := ih rest' { g with bootstrap_classpath := v } g' hlen
              rw [parse_args_loop_bcp_value S v rest' g hf]
              simp only [optionPositions, positionals, bcpValues, decide_True, List.mem_cons,
                forall_eq_or_imp, List.filter_cons, hd, Bool.not_true, List.isEmpty_cons,
                Bool.not_false, true_and, implies_true, List.getLast?_cons, Option.getD_some,
                Bool.false_eq_true, if_false, hf]
              exact this
            · rw [parse_args_loop_bcp_value_overflow S v rest' g hf]
              simp [bcpValues, hf]
        · rw [parse_args_loop_unknown S a rest g hd hb]
          simp [optionPositions, hd, hb]
      · have hlen : rest.length ≤ n := by simp at hl; omega
        have hb : a ≠ lit_bcp := fun h => hd (h ▸ beginsWithDash_bcp)
        by_cases hf : strlen a + 1 ≤ S.main_class
        · have := ih rest { g with main_class := a } g' hlen
          rw [parse_args_loop_positional S a rest g hd hf]
          simp only [optionPositions, positionals, bcpValues, hb, decide_False, List.mem_cons,
            forall_eq_or_imp, List.filter_cons, hd, List.getLast?_cons, Option.getD_some,
            Bool.not_false, if_true, List.map_cons, false_implies, true_and, hf]
          exact this
        · rw [parse_args_loop_positional_overflow S a rest g hd hf]
          simp [optionPositions, positionals, hd, hf]

theorem parse_args_eq_some_true (S : BufferSizes) (argv : List CStr) (g g' : Globals) :
    parse_args S argv g = some (true, g') ↔
      parse_args_loop S (argv.drop 1) g = some (true, g') ∧ g'.main_class ≠ CStr.empty := by
  unfold parse_args
  generalize parse_args_loop S (argv.drop 1) g = r
  cases r with
  | none => simp
  | some r =>
    obtain ⟨b, g1⟩ := r
    have hz := at_zero_eq_nul_iff g1.main_class
    cases b
    · simp
    · by_cases he : g1.main_class = CStr.empty
      · simp only [Bool.not_true, Bool.false_eq_true, if_false, hz.mpr he, if_true,
          Option.some.injEq, Prod.mk.injEq, true_and, false_and, false_iff, not_and, not_not]
        intro h; rw [← h]; exact he
      · have hz2 : ¬ ((g1.main_class.at 0 == '\x00') = true) := fun e => he (hz.mp e)
        simp only [Bool.not_true, Bool.false_eq_true, if_false, hz2, Option.some.injEq,
          Prod.mk.injEq, true_and]
        constructor
        · intro h; exact ⟨h, h ▸ he⟩
        · intro h; exact h.1

theorem parse_args_eq_none (S : BufferSizes) (argv : List CStr) (g : Globals) :
    parse_args S argv g = none ↔ parse_args_loop S (argv.drop 1) g = none := by
  unfold parse_args
  generalize parse_args_loop S (argv.drop 1) g = r
  cases r with
  | none => simp
  | some r => simp only [reduceCtorEq, iff_false]; split_ifs <;> simp

/-- What an accepted command line leaves in the buffers. -/
theorem parse_args_globals (S : BufferSizes) (argv : List CStr) (g g' : Globals)
    (h : parse_args S argv g = some (true, g')) :
    g'.main_class = (positionals (argv.drop 1)).getLast?.getD g.main_class ∧
    g'.bootstrap_classpath =
      (bcpValues false (argv.drop 1)).getLast?.getD g.bootstrap_classpath ∧
    g'.extension_classpath = g.extension_classpath ∧
    g'.main_class ≠ CStr.empty := by
  have h1 := (parse_args_eq_some_true S argv g g').mp h
  have h2 := ((parse_args_loop_spec S _ (argv.drop 1) g g' (le_refl _)).mp h1.1).2.2.2.2
  refine ⟨?_, ?_, ?_, h1.2⟩ <;> rw [h2]

/-- The acceptance condition of `parse_args` with `main_class` initially
empty: it returns true, leaving the buffers `g'`, exactly when every dash
argument in option position is `"-bcp"` followed by another argument, the last
positional argument exists and is non-empty, every positional argument and
every `-bcp` value fits its buffer, and `g'` holds the last positional
argument and the last `-bcp` value. -/
theorem parse_args_accepts_iff (S : BufferSizes) (argv : List CStr) (g g' : Globals)
    (hg : g.main_class = CStr.empty) :
    parse_args S argv g = some (true, g') ↔
      (∀ p ∈ optionPositions false (argv.drop 1), beginsWithDash p.1 → p.1 = lit_bcp) ∧
      (∀ p ∈ optionPositions false (argv.drop 1), p.1 = lit_bcp → p.2 = true) ∧
      (∃ m, (positionals (argv.drop 1)).getLast? = some m ∧ m ≠ CStr.empty) ∧
      (∀ p ∈ positionals (argv.drop 1), strlen p + 1 ≤ S.main_class) ∧
      (∀ v ∈ bcpValues false (argv.drop 1), strlen v + 1 ≤ S.bootstrap_classpath) ∧
      g' = { bootstrap_classpath :=
               (bcpValues false (argv.drop 1)).getLast?.getD g.bootstrap_classpath,
             extension_classpath := g.extension_classpath,
             main_class := (positionals (argv.drop 1)).getLast?.getD CStr.empty } := by
  rw [parse_args_eq_some_true, parse_args_loop_spec S _ (argv.drop 1) g g' (le_refl _), hg]
  constructor
  · rintro ⟨⟨hA, hB, hP, hV, hG⟩, hne⟩
    refine ⟨hA, hB, ?_, hP, hV, hG⟩
    rw [hG] at hne
    cases hl : (positionals (argv.drop 1)).getLast? with
    | none => rw [hl] at hne; exact absurd rfl hne
    | some m => rw [hl] at hne; exact ⟨m, rfl, hne⟩
  · rintro ⟨hA, hB, ⟨m, hm, hne⟩, hP, hV, hG⟩
    refine ⟨⟨hA, hB, hP, hV, hG⟩, ?_⟩
    rw [hG, hm]
    exact hne

/-! ### The runs of `main` -/

theorem main_parse_overflow (S : BufferSizes) (ab : Bool) (getenv : CStr → Option CStr)
    (argv : List CStr) (g : Globals) (h : parse_args S argv g = none) :
    main S ab getenv argv g = Outcome.cut g := by
  unfold main
  rw [h]

/-- The run of `main` on a command line that `parse_args` rejects. -/
theorem main_rejected (S : BufferSizes) (ab : Bool) (getenv : CStr → Option CStr)
    (argv : List CStr) (g g' : Globals) (h : parse_args S argv g = some (false, g')) :
    main S ab getenv argv g =
      { ret := if ab then some (-1) else none,
        calls := [Call.jvm_abort lit_error],
        globals := g',
        overflow := false } := by
  unfold main
  rw [h]
  simp

/-- The run of `main` when the bootstrap class path is empty after parsing
and `JAVA_HOME` is not set. -/
theorem main_no_java_home (S : BufferSizes) (ab : Bool) (getenv : CStr → Option CStr)
    (argv : List CStr) (g g' : Globals) (h : parse_args S argv g = some (true, g'))
    (hb : g'.bootstrap_classpath = CStr.empty) (he : getenv lit_JAVA_HOME = none) :
    main S ab getenv argv g =
      { ret := some (-1), calls := [], globals := g', overflow := false } := by
  unfold main
  rw [h]
  simp [hb, he, (at_zero_eq_nul_iff CStr.empty).mpr rfl]

/-- The run of `main` when the bootstrap class path is non-empty after parsing. -/
theorem main_explicit (S : BufferSizes) (ab : Bool) (getenv : CStr → Option CStr)
    (argv : List CStr) (g g' : Globals) (h : parse_args S argv g = some (true, g'))
    (hb : g'.bootstrap_classpath ≠ CStr.empty) :
    main S ab getenv argv g = main_extension S g' := by
  have hz : ¬ ((g'.bootstrap_classpath.at 0 == '\x00') = true) :=
    fun e => hb ((at_zero_eq_nul_iff _).mp e)
  unfold main
  rw [h]
  simp [hz]

/-- The run of `main` when the bootstrap class path is empty after parsing,
`JAVA_HOME` is set and fits the buffer with `"/jre/lib"` appended. -/
theorem main_java_home (S : BufferSizes) (ab : Bool) (getenv : CStr → Option CStr)
    (argv : List CStr) (g g' : Globals) (jh : CStr)
    (h : parse_args S argv g = some (true, g'))
    (hb : g'.bootstrap_classpath = CStr.empty) (he : getenv lit_JAVA_HOME = some jh)
    (hf : strlen jh + strlen lit_jre_lib + 1 ≤ S.bootstrap_classpath) :
    main S ab getenv argv g =
      main_extension S { g' with bootstrap_classpath := jh.append lit_jre_lib } := by
  have hf1 : strlen jh + 1 ≤ S.bootstrap_classpath := by omega
  unfold main
  rw [h]
  simp [hb, he, (at_zero_eq_nul_iff CStr.empty).mpr rfl, strcpy_of_fits _ _ _ hf1,
    strcat_of_fits _ _ _ hf]

/-- The run of `main` when the bootstrap class path is empty after parsing
and `JAVA_HOME` with `"/jre/lib"` appended does not fit the buffer. -/
theorem main_java_home_overflow (S : BufferSizes) (ab : Bool) (getenv : CStr → Option CStr)
    (argv : List CStr) (g g' : Globals) (jh : CStr)
    (h : parse_args S argv g = some (true, g'))
    (hb : g'.bootstrap_classpath = CStr.empty) (he : getenv lit_JAVA_HOME = some jh)
    (hf : ¬ strlen jh + strlen lit_jre_lib + 1 ≤ S.bootstrap_classpath) :
    (main S ab getenv argv g).overflow = true ∧ (main S ab getenv argv g).calls = [] ∧
      (main S ab getenv argv g).ret = none := by
  unfold main
  rw [h]
  simp only [Bool.not_true, Bool.false_eq_true, if_false, hb,
    (at_zero_eq_nul_iff CStr.empty).mpr rfl, if_true, he]
  by_cases hf1 : strlen jh + 1 ≤ S.bootstrap_classpath
  · simp [strcpy_of_fits _ _ _ hf1, strcat_of_not_fits _ _ _ hf, Outcome.cut]
  · simp [strcpy_of_not_fits _ _ _ hf1, Outcome.cut]

/-- The last part of `main` when the extension class path can be set up. -/
theorem main_extension_fits (S : BufferSizes) (g : Globals)
    (hf : g.extension_classpath ≠ CStr.empty ∨
      strlen g.bootstrap_classpath + strlen lit_ext + 1 ≤ S.extension_classpath) :
    (main_extension S g).ret = some 0 ∧
    (main_extension S g).calls =
      [Call.register_all_native_methods, Call.start_jvm lit_HelloWorld] ∧
    (main_extension S g).overflow = false ∧
    (main_extension S g).globals.bootstrap_classpath = g.bootstrap_classpath := by
  unfold main_extension
  by_cases he : g.extension_classpath = CStr.empty
  · have hf2 : strlen g.bootstrap_classpath + strlen lit_ext + 1 ≤ S.extension_classpath := by
      rcases hf with hf | hf
      · exact absurd he hf
      · exact hf
    have hf1 : strlen g.bootstrap_classpath + 1 ≤ S.extension_classpath := by omega
    simp only [he, (at_zero_eq_nul_iff CStr.empty).mpr rfl, if_true,
      strcpy_of_fits _ _ _ hf1, strcat_of_fits _ _ _ hf2]
    exact ⟨rfl, rfl, rfl, rfl⟩
  · have hz : ¬ ((g.extension_classpath.at 0 == '\x00') = true) :=
      fun e => he ((at_zero_eq_nul_iff _).mp e)
    simp only [hz, if_false]
    exact ⟨rfl, rfl, rfl, rfl⟩

/-- The last part of `main` when the extension class path does not fit its buffer. -/
theorem main_extension_overflow (S : BufferSizes) (g : Globals)
    (hf : ¬ (g.extension_classpath ≠ CStr.empty ∨
      strlen g.bootstrap_classpath + strlen lit_ext + 1 ≤ S.extension_classpath)) :
    (main_extension S g).ret = none ∧ (main_extension S g).calls = [] ∧
      (main_extension S g).overflow = true := by
  simp only [not_or, not_not] at hf
  unfold main_extension
  simp only [hf.1, (at_zero_eq_nul_iff CStr.empty).mpr rfl, if_true]
  by_cases hf1 : strlen g.bootstrap_classpath + 1 ≤ S.extension_classpath
  · simp [strcpy_of_fits _ _ _ hf1, strcat_of_not_fits _ _ _ hf.2, Outcome.cut]
  · simp [strcpy_of_not_fits _ _ _ hf1, Outcome.cut]

/-- The last part of `main` either starts the VM or is cut at an overflow. -/
theorem main_extension_cases (S : BufferSizes) (g : Globals) :
    ((main_extension S g).ret = some 0 ∧
      (main_extension S g).calls =
        [Call.register_all_native_methods, Call.start_jvm lit_HelloWorld] ∧
      (main_extension S g).overflow = false) ∨
    ((main_extension S g).ret = none ∧ (main_extension S g).calls = [] ∧
      (main_extension S g).overflow = true) := by
  by_cases hf : g.extension_classpath ≠ CStr.empty ∨
      strlen g.bootstrap_classpath + strlen lit_ext + 1 ≤ S.extension_classpath
  · left
    have := main_extension_fits S g hf
    exact ⟨this.1, this.2.1, this.2.2.1⟩
  · right
    exact main_extension_overflow S g hf

/-- The return value, calls and overflow mark of the last part of `main`
depend on the two class-path buffers only. -/
theorem main_extension_congr (S : BufferSizes) (g g' : Globals)
    (hb : g.bootstrap_classpath = g'.bootstrap_classpath)
    (he : g.extension_classpath = g'.extension_classpath) :
    (main_extension S g).ret = (main_extension S g').ret ∧
    (main_extension S g).calls = (main_extension S g').calls ∧
    (main_extension S g).overflow = (main_extension S g').overflow := by
  by_cases hf : g.extension_classpath ≠ CStr.empty ∨
      strlen g.bootstrap_classpath + strlen lit_ext + 1 ≤ S.extension_classpath
  · have h1 := main_extension_fits S g hf
    have h2 := main_extension_fits S g' (by rw [← hb, ← he]; exact hf)
    exact ⟨by rw [h1.1, h2.1], by rw [h1.2.1, h2.2.1], by rw [h1.2.2.1, h2.2.2.1]⟩
  · have h1 := main_extension_overflow S g hf
    have h2 := main_extension_overflow S g' (by rw [← hb, ← he]; exact hf)
    exact ⟨by rw [h1.1, h2.1], by rw [h1.2.1, h2.2.1], by rw [h1.2.2, h2.2.2]⟩

/-- The ways a run of `main` can go: the VM is started, or no call is made
(return -1, or a cut at an overflow), or only `jvm_abort` is called. -/
theorem main_cases (S : BufferSizes) (ab : Bool) (getenv : CStr → Option CStr)
    (argv : List CStr) (g : Globals) :
    ((main S ab getenv argv g).ret = some 0 ∧
      (main S ab getenv argv g).calls =
        [Call.register_all_native_methods, Call.start_jvm lit_HelloWorld] ∧
      (main S ab getenv argv g).overflow = false) ∨
    ((main S ab getenv argv g).ret ≠ some 0 ∧ (main S ab getenv argv g).calls = []) ∨
    ((main S ab getenv argv g).ret ≠ some 0 ∧
      (main S ab getenv argv g).calls = [Call.jvm_abort lit_error]) := by
  have ext : ∀ g2, main S ab getenv argv g = main_extension S g2 →
      ((main S ab getenv argv g).ret = some 0 ∧
        (main S ab getenv argv g).calls =
          [Call.register_all_native_methods, Call.start_jvm lit_HelloWorld] ∧
        (main S ab getenv argv g).overflow = false) ∨
      ((main S ab getenv argv g).ret ≠ some 0 ∧ (main S ab getenv argv g).calls = []) ∨
      ((main S ab getenv argv g).ret ≠ some 0 ∧
        (main S ab getenv argv g).calls = [Call.jvm_abort lit_error]) := by
    intro g2 h
    rw [h]
    rcases main_extension_cases S g2 with hc | hc
    · exact Or.inl hc
    · exact Or.inr (Or.inl ⟨by rw [hc.1]; simp, hc.2.1⟩)
  cases h : parse_args S argv g with
  | none =>
    right; left
    rw [main_parse_overflow S ab getenv argv g h]
    simp [Outcome.cut]
  | some p =>
    obtain ⟨b, g'⟩ := p
    cases b
    · right; right
      rw [main_rejected S ab getenv argv g g' h]
      cases ab <;> simp
    · by_cases hb : g'.bootstrap_classpath = CStr.empty
      · cases he : getenv lit_JAVA_HOME with
        | none =>
          right; left
          rw [main_no_java_home S ab getenv argv g g' h hb he]
          simp
        | some jh =>
          by_cases hf : strlen jh + strlen lit_jre_lib + 1 ≤ S.bootstrap_classpath
          · exact ext _ (main_java_home S ab getenv argv g g' jh h hb he hf)
          · right; left
            have := main_java_home_overflow S ab getenv argv g g' jh h hb he hf
            exact ⟨by rw [this.2.2]; simp, this.2.1⟩
      · exact ext _ (main_explicit S ab getenv argv g g' h hb)

/-- C2: in every run of `main`, any call of `start_jvm` comes after a call of
`register_all_native_methods`; a run that returns 0 makes exactly the calls
`register_all_native_methods`, `start_jvm("HelloWorld")` in this order; a run
that returns -1 never calls `start_jvm`; this is so when `parse_args` rejects
the arguments, and when the bootstrap class path is still empty after parsing
(no `-bcp` value, buffer initially empty) and `JAVA_HOME` is unset, where `main`
returns -1 having made no call. -/
theorem main_registers_before_start (S : BufferSizes) (ab : Bool)
    (getenv : CStr → Option CStr) (argv : List CStr) (g : Globals) :
    (∀ pre post n, (main S ab getenv argv g).calls = pre ++ Call.start_jvm n :: post →
      Call.register_all_native_methods ∈ pre) ∧
    ((main S ab getenv argv g).ret = some 0 →
      (main S ab getenv argv g).calls =
        [Call.register_all_native_methods, Call.start_jvm lit_HelloWorld]) ∧
    ((main S ab getenv argv g).ret = some (-1) →
      ∀ n, Call.start_jvm n ∉ (main S ab getenv argv g).calls) ∧
    (∀ g', parse_args S argv g = some (false, g') →
      (main S ab getenv argv g).ret ≠ some 0 ∧
        (ab = true → (main S ab getenv argv g).ret = some (-1)) ∧
        ∀ n, Call.start_jvm n ∉ (main S ab getenv argv g).calls) ∧
    (∀ g', parse_args S argv g = some (true, g') → g.bootstrap_classpath = CStr.empty →
      bcpValues false (argv.drop 1) = [] → getenv lit_JAVA_HOME = none →
      (main S ab getenv argv g).ret = some (-1) ∧ (main S ab getenv argv g).calls = []) := by
  have hc := main_cases S ab getenv argv g
  refine ⟨?_, ?_, ?_, ?_, ?_⟩
  · intro pre post n h
    rcases hc with ⟨_, hcalls, _⟩ | ⟨_, hcalls⟩ | ⟨_, hcalls⟩
    · rw [hcalls] at h
      match pre, h with
      | [], h => simp at h
      | [x], h =>
        simp only [List.singleton_append, List.cons.injEq] at h
        simp [← h.1]
      | x :: y :: r, h =>
        simp only [List.cons_append, List.cons.injEq] at h
        simp [← h.1]
    · rw [hcalls] at h
      exact absurd h (by simp)
    · rw [hcalls] at h
      match pre, h with
      | [], h => simp at h
      | x :: r, h => simp at h
  · intro h
    rcases hc with ⟨_, hcalls, _⟩ | ⟨hr, _⟩ | ⟨hr, _⟩
    · exact hcalls
    · exact absurd h hr
    · exact absurd h hr
  · intro h n
    rcases hc with ⟨hr, _⟩ | ⟨_, hcalls⟩ | ⟨_, hcalls⟩
    · rw [hr] at h; exact absurd h (by decide)
    · simp [hcalls]
    · simp [hcalls]
  · intro g' h
    rw [main_rejected S ab getenv argv g g' h]
    refine ⟨?_, ?_, ?_⟩
    · cases ab <;> simp
    · intro hab; simp [hab]
    · simp
  · intro g' h hg hv he
    have hb : g'.bootstrap_classpath = CStr.empty := by
      rw [(parse_args_globals S argv g g' h).2.1, hv, hg]; rfl
    rw [main_no_java_home S ab getenv argv g g' h hb he]
    exact ⟨rfl, rfl⟩

/-- C7, as the code has it: on an accepted command line, with
`bootstrap_classpath` initially empty, and as long as what `main` copies fits
its buffers, (1) if the last `-bcp` option has a non-empty value `v`, the
bootstrap class path is `v` whatever the environment, and the VM is started;
(2) if there is no `-bcp` option or the last one has the empty value, and
`JAVA_HOME` is set to `h`, it is `h` followed by `"/jre/lib"`; (3) in that case
with `JAVA_HOME` unset, `main` returns -1 without making any call. -/
theorem main_bootstrap_classpath (S : BufferSizes) (ab : Bool) (getenv : CStr → Option CStr)
    (argv : List CStr) (g g' : Globals) (hg : g.bootstrap_classpath = CStr.empty)
    (hacc : parse_args S argv g = some (true, g')) :
    (∀ v, (bcpValues false (argv.drop 1)).getLast? = some v → v ≠ CStr.empty →
      extensionFits S g v →
      (main S ab getenv argv g).globals.bootstrap_classpath = v ∧
      (main S ab getenv argv g).ret = some 0 ∧
      (main S ab getenv argv g).calls =
        [Call.register_all_native_methods, Call.start_jvm lit_HelloWorld] ∧
      (main S ab getenv argv g).overflow = false) ∧
    (((bcpValues false (argv.drop 1)).getLast? = none ∨
        (bcpValues false (argv.drop 1)).getLast? = some CStr.empty) →
      ∀ h, getenv lit_JAVA_HOME = some h →
        strlen h + strlen lit_jre_lib + 1 ≤ S.bootstrap_classpath →
        extensionFits S g (h.append lit_jre_lib) →
        (main S ab getenv argv g).globals.bootstrap_classpath = h.append lit_jre_lib ∧
        (main S ab getenv argv g).ret = some 0 ∧
        (main S ab getenv argv g).calls =
          [Call.register_all_native_methods, Call.start_jvm lit_HelloWorld] ∧
        (main S ab getenv argv g).overflow = false) ∧
    (((bcpValues false (argv.drop 1)).getLast? = none ∨
        (bcpValues false (argv.drop 1)).getLast? = some CStr.empty) →
      getenv lit_JAVA_HOME = none →
        (main S ab getenv argv g).ret = some (-1) ∧ (main S ab getenv argv g).calls = [] ∧
        (main S ab getenv argv g).overflow = false) := by
  have hgl := parse_args_globals S argv g g' hacc
  have hb := hgl.2.1
  rw [hg] at hb
  have hempty : ((bcpValues false (argv.drop 1)).getLast? = none ∨
        (bcpValues false (argv.drop 1)).getLast? = some CStr.empty) →
      g'.bootstrap_classpath = CStr.empty := by
    rintro (h | h) <;> rw [hb, h] <;> rfl
  refine ⟨?_, ?_, ?_⟩
  · intro v hv hne hfit
    have hb2 : g'.bootstrap_classpath = v := by rw [hb, hv]; rfl
    rw [main_explicit S ab getenv argv g g' hacc (by rw [hb2]; exact hne)]
    have := main_extension_fits S g' (by
      rw [hgl.2.2.1, hb2]; exact hfit)
    exact ⟨by rw [this.2.2.2, hb2], this.1, this.2.1, this.2.2.1⟩
  · intro hc h he hf hfit
    rw [main_java_home S ab getenv argv g g' h hacc (hempty hc) he hf]
    have := main_extension_fits S { g' with bootstrap_classpath := h.append lit_jre_lib } (by
      show g'.extension_classpath ≠ CStr.empty ∨ _
      rw [hgl.2.2.1]; exact hfit)
    exact ⟨this.2.2.2, this.1, this.2.1, this.2.2.1⟩
  · intro hc he
    rw [main_no_java_home S ab getenv argv g g' hacc (hempty hc) he]
    exact ⟨rfl, rfl, rfl⟩

/-- C7 witness: `jvm -bcp /opt/jdk/jre/lib Foo` with no environment, on
buffers of 4096 chars. -/
theorem main_bootstrap_classpath_witness :
    Globals.zero.bootstrap_classpath = CStr.empty ∧
    parse_args sample_sizes argv_bcp_Foo Globals.zero =
      some (true, { bootstrap_classpath := arg_rt, extension_classpath := CStr.empty,
                    main_class := arg_Foo }) ∧
    (bcpValues false (argv_bcp_Foo.drop 1)).getLast? = some arg_rt ∧
    arg_rt ≠ CStr.empty ∧
    extensionFits sample_sizes Globals.zero arg_rt ∧
    (main sample_sizes true envNone argv_bcp_Foo Globals.zero).globals.bootstrap_classpath
      = arg_rt :=
  ⟨rfl, by decide, by decide, by decide, by decide,
    ((main_bootstrap_classpath sample_sizes true envNone argv_bcp_Foo Globals.zero
        { bootstrap_classpath := arg_rt, extension_classpath := CStr.empty,
          main_class := arg_Foo } rfl
        (by decide)).1 arg_rt (by decide) (by decide) (by decide)).1⟩

/-- C7 as stated fails: on `jvm -bcp "" Foo` the arguments are accepted and
contain a `-bcp` option with value `""`, yet with `JAVA_HOME=/opt/jdk` the
bootstrap class path is `/opt/jdk/jre/lib`, not that value, and with
`JAVA_HOME` unset `main` returns -1 without starting the VM; no copy
overflows in these runs. -/
theorem main_bootstrap_classpath_empty_value :
    Globals.zero.bootstrap_classpath = CStr.empty ∧
    parse_args sample_sizes argv_bcp_empty_Foo Globals.zero =
      some (true, { bootstrap_classpath := CStr.empty, extension_classpath := CStr.empty,
                    main_class := arg_Foo }) ∧
    bcpValues false (argv_bcp_empty_Foo.drop 1) = [CStr.empty] ∧
    (main sample_sizes true (envJavaHome dir_jdk) argv_bcp_empty_Foo
        Globals.zero).globals.bootstrap_classpath = arg_rt ∧
    (main sample_sizes true (envJavaHome dir_jdk) argv_bcp_empty_Foo
        Globals.zero).globals.bootstrap_classpath ≠ CStr.empty ∧
    (main sample_sizes true (envJavaHome dir_jdk) argv_bcp_empty_Foo
        Globals.zero).overflow = false ∧
    (main sample_sizes true envNone argv_bcp_empty_Foo Globals.zero).ret = some (-1) ∧
    (main sample_sizes true envNone argv_bcp_empty_Foo Globals.zero).calls = [] ∧
    (main sample_sizes true envNone argv_bcp_empty_Foo Globals.zero).overflow = false := by
  decide

/-- C8 at the command line `jvm AAA...A` whose main-class argument has 4096
characters, with `FILENAME_MAX` = 4096 and `main_class` initially empty: no
argument begins with `'-'`, the last positional argument exists and is
non-empty, so the three conditions hold; but `strcpy(main_class, argv[1])`
needs 4097 chars, the copy does not fit the buffer and `parse_args` does not
return true. -/
theorem parse_args_long_main_class_overflows :
    Globals.zero.main_class = CStr.empty ∧
    strlen arg_long + 1 = sample_sizes.main_class + 1 ∧
    (∀ p ∈ optionPositions false (argv_long.drop 1), beginsWithDash p.1 → p.1 = lit_bcp) ∧
    (∀ p ∈ optionPositions false (argv_long.drop 1), p.1 = lit_bcp → p.2 = true) ∧
    (∃ m, (positionals (argv_long.drop 1)).getLast? = some m ∧ m ≠ CStr.empty) ∧
    strcpy sample_sizes.main_class Globals.zero.main_class arg_long = none ∧
    parse_args sample_sizes argv_long Globals.zero = none ∧
    (∀ g', parse_args sample_sizes argv_long Globals.zero ≠ some (true, g')) := by
  have hlen : strlen arg_long = 4096 := List.length_replicate _ _
  have hnd : ¬ beginsWithDash arg_long := by decide
  have hnb : arg_long ≠ lit_bcp := fun h => hnd (h ▸ beginsWithDash_bcp)
  have hne : arg_long ≠ CStr.empty := by
    intro h
    have := congrArg strlen h
    rw [hlen] at this
    exact absurd this (by decide)
  have hfit : ¬ strlen arg_long + 1 ≤ sample_sizes.main_class := by
    rw [hlen]; decide
  have hnone : parse_args sample_sizes argv_long Globals.zero = none := by
    rw [parse_args_eq_none]
    exact parse_args_loop_positional_overflow sample_sizes arg_long [] Globals.zero hnd hfit
  refine ⟨rfl, by rw [hlen]; rfl, ?_, ?_, ?_, strcpy_of_not_fits _ _ _ hfit, hnone, ?_⟩
  · intro p hp hd
    simp only [argv_long, List.drop_succ_cons, List.drop_zero, optionPositions,
      List.mem_singleton] at hp
    rw [hp] at hd
    exact absurd hd hnd
  · intro p hp hb
    simp only [argv_long, List.drop_succ_cons, List.drop_zero, optionPositions,
      List.mem_singleton] at hp
    rw [hp] at hb
    exact absurd hb hnb
  · refine ⟨arg_long, ?_, hne⟩
    simp [argv_long, positionals, optionPositions, hnd]
  · intro g' h
    rw [hnone] at h
    exact absurd h (by simp)

/-- After an accepted command line, the return value, calls and overflow mark
of `main` depend on the two class-path buffers only. -/
theorem main_accepted_congr (S : BufferSizes) (ab : Bool) (getenv : CStr → Option CStr)
    (argv₁ argv₂ : List CStr) (g g₁ g₂ : Globals)
    (h₁ : parse_args S argv₁ g = some (true, g₁)) (h₂ : parse_args S argv₂ g = some (true, g₂))
    (hb : g₁.bootstrap_classpath = g₂.bootstrap_classpath)
    (he : g₁.extension_classpath = g₂.extension_classpath) :
    (main S ab getenv argv₁ g).ret = (main S ab getenv argv₂ g).ret ∧
    (main S ab getenv argv₁ g).calls = (main S ab getenv argv₂ g).calls ∧
    (main S ab getenv argv₁ g).overflow = (main S ab getenv argv₂ g).overflow := by
  by_cases hz : g₁.bootstrap_classpath = CStr.empty
  · have hz₂ : g₂.bootstrap_classpath = CStr.empty := hb ▸ hz
    cases hj : getenv lit_JAVA_HOME with
    | none =>
      rw [main_no_java_home S ab getenv argv₁ g g₁ h₁ hz hj,
        main_no_java_home S ab getenv argv₂ g g₂ h₂ hz₂ hj]
      exact ⟨rfl, rfl, rfl⟩
    | some jh =>
      by_cases hf : strlen jh + strlen lit_jre_lib + 1 ≤ S.bootstrap_classpath
      · rw [main_java_home S ab getenv argv₁ g g₁ jh h₁ hz hj hf,
          main_java_home S ab getenv argv₂ g g₂ jh h₂ hz₂ hj hf]
        exact main_extension_congr S _ _ rfl he
      · have o₁ := main_java_home_overflow S ab getenv argv₁ g g₁ jh h₁ hz hj hf
        have o₂ := main_java_home_overflow S ab getenv argv₂ g g₂ jh h₂ hz₂ hj hf
        exact ⟨by rw [o₁.2.2, o₂.2.2], by rw [o₁.2.1, o₂.2.1], by rw [o₁.1, o₂.1]⟩
  · have hz₂ : g₂.bootstrap_classpath ≠ CStr.empty := hb ▸ hz
    rw [main_explicit S ab getenv argv₁ g g₁ h₁ hz, main_explicit S ab getenv argv₂ g g₂ h₂ hz₂]
    exact main_extension_congr S _ _ hb he

/-- A run of `main` that is not cut at an overflow starts the VM as soon as a
bootstrap class path is available. -/
theorem main_accepted_starts (S : BufferSizes) (ab : Bool) (getenv : CStr → Option CStr)
    (argv : List CStr) (g g' : Globals) (h : parse_args S argv g = some (true, g'))
    (ho : (main S ab getenv argv g).overflow = false)
    (hres : g'.bootstrap_classpath ≠ CStr.empty ∨ (getenv lit_JAVA_HOME).isSome = true) :
    (main S ab getenv argv g).calls =
      [Call.register_all_native_methods, Call.start_jvm lit_HelloWorld] := by
  have ext : ∀ g2, main S ab getenv argv g = main_extension S g2 →
      (main S ab getenv argv g).calls =
        [Call.register_all_native_methods, Call.start_jvm lit_HelloWorld] := by
    intro g2 e
    rw [e] at ho ⊢
    rcases main_extension_cases S g2 with hc | hc
    · exact hc.2.1
    · rw [hc.2.2] at ho; exact absurd ho (by decide)
  by_cases hz : g'.bootstrap_classpath = CStr.empty
  · rcases hres with hres | hres
    · exact absurd hz hres
    · obtain ⟨jh, hj⟩ := Option.isSome_iff_exists.mp hres
      by_cases hf : strlen jh + strlen lit_jre_lib + 1 ≤ S.bootstrap_classpath
      · exact ext _ (main_java_home S ab getenv argv g g' jh h hz hj hf)
      · have o := main_java_home_overflow S ab getenv argv g g' jh h hz hj hf
        rw [o.1] at ho; exact absurd ho (by decide)
  · exact ext _ (main_explicit S ab getenv argv g g' h hz)

/-- C10: two accepted command lines with the same `-bcp` options, whatever
their positional arguments, run under the same environment from the same
buffers: either both runs are cut at an overflowing copy or neither is, and
when they are not, they make the same calls and return the same value; every
`start_jvm` call has the class name `"HelloWorld"`, and the call is made in
both runs as soon as a bootstrap class path is available; the parsed
`main_class` is non-empty in both and is not what `start_jvm` receives. -/
theorem main_ignores_main_class (S : BufferSizes) (ab : Bool) (getenv : CStr → Option CStr)
    (argv₁ argv₂ : List CStr) (g g₁ g₂ : Globals)
    (h₁ : parse_args S argv₁ g = some (true, g₁)) (h₂ : parse_args S argv₂ g = some (true, g₂))
    (hopt : bcpValues false (argv₁.drop 1) = bcpValues false (argv₂.drop 1)) :
    (main S ab getenv argv₁ g).overflow = (main S ab getenv argv₂ g).overflow ∧
    ((main S ab getenv argv₁ g).overflow = false →
      (main S ab getenv argv₁ g).calls = (main S ab getenv argv₂ g).calls ∧
      (main S ab getenv argv₁ g).ret = (main S ab getenv argv₂ g).ret) ∧
    (∀ n, Call.start_jvm n ∈ (main S ab getenv argv₁ g).calls → n = lit_HelloWorld) ∧
    (∀ n, Call.start_jvm n ∈ (main S ab getenv argv₂ g).calls → n = lit_HelloWorld) ∧
    ((main S ab getenv argv₁ g).overflow = false →
      (g₁.bootstrap_classpath ≠ CStr.empty ∨ (getenv lit_JAVA_HOME).isSome = true) →
      (main S ab getenv argv₁ g).calls =
          [Call.register_all_native_methods, Call.start_jvm lit_HelloWorld] ∧
        (main S ab getenv argv₂ g).calls =
          [Call.register_all_native_methods, Call.start_jvm lit_HelloWorld]) ∧
    g₁.main_class ≠ CStr.empty ∧
    g₂.main_class ≠ CStr.empty := by
  have hello : ∀ argv n, Call.start_jvm n ∈ (main S ab getenv argv g).calls →
      n = lit_HelloWorld := by
    intro argv n hn
    rcases main_cases S ab getenv argv g with ⟨_, hcalls, _⟩ | ⟨_, hcalls⟩ | ⟨_, hcalls⟩
    · rw [hcalls] at hn
      simpa using hn
    · rw [hcalls] at hn; simp at hn
    · rw [hcalls] at hn; simp at hn
  have hgl₁ := parse_args_globals S argv₁ g g₁ h₁
  have hgl₂ := parse_args_globals S argv₂ g g₂ h₂
  have hb : g₁.bootstrap_classpath = g₂.bootstrap_classpath := by
    rw [hgl₁.2.1, hgl₂.2.1, hopt]
  have he : g₁.extension_classpath = g₂.extension_classpath := by
    rw [hgl₁.2.2.1, hgl₂.2.2.1]
  have hc := main_accepted_congr S ab getenv argv₁ argv₂ g g₁ g₂ h₁ h₂ hb he
  refine ⟨hc.2.2, fun _ => ⟨hc.2.1, hc.1⟩, hello argv₁, hello argv₂, ?_, hgl₁.2.2.2,
    hgl₂.2.2.2⟩
  intro ho hres
  have s₁ := main_accepted_starts S ab getenv argv₁ g g₁ h₁ ho hres
  exact ⟨s₁, by rw [← hc.2.1]; exact s₁⟩

/-- C10 witness: `jvm -bcp /opt/jdk/jre/lib Foo` and `jvm Bar -bcp /opt/jdk/jre/lib`
on buffers of 4096 chars. -/
theorem main_ignores_main_class_witness :
    parse_args sample_sizes argv_bcp_Foo Globals.zero =
      some (true, { bootstrap_classpath := arg_rt, extension_classpath := CStr.empty,
                    main_class := arg_Foo }) ∧
    parse_args sample_sizes argv_Bar_bcp Globals.zero =
      some (true, { bootstrap_classpath := arg_rt, extension_classpath := CStr.empty,
                    main_class := arg_Bar }) ∧
    bcpValues false (argv_bcp_Foo.drop 1) = bcpValues false (argv_Bar_bcp.drop 1) ∧
    (main sample_sizes true envNone argv_bcp_Foo Globals.zero).overflow = false ∧
    (main sample_sizes true envNone argv_bcp_Foo Globals.zero).calls =
      (main sample_sizes true envNone argv_Bar_bcp Globals.zero).calls ∧
    (main sample_sizes true envNone argv_bcp_Foo Globals.zero).calls =
      [Call.register_all_native_methods, Call.start_jvm lit_HelloWorld] :=
  ⟨by decide, by decide, by decide, by decide,
    ((main_ignores_main_class sample_sizes true envNone argv_bcp_Foo argv_Bar_bcp Globals.zero
      { bootstrap_classpath := arg_rt, extension_classpath := CStr.empty,
        main_class := arg_Foo }
      { bootstrap_classpath := arg_rt, extension_classpath := CStr.empty,
        main_class := arg_Bar }
      (by decide) (by decide) (by decide)).2.1 (by decide)).1, by decide⟩

/-! ## The native bridge -/

theorem registerNatives_eq (ms : List JNINativeMethod) (r : Registry) (c : CStr) :
    registerNatives r c ms =
      r ++ ms.map (fun m => { class_name := c, method_name := m.name,
                              descriptor := m.descriptor, callable := m.func }) := by
  unfold registerNatives
  induction ms generalizing r with
  | nil => simp
  | cons m ms ih =>
    rw [List.foldl_cons, ih]
    simp [register]

theorem lookup_append_of_other_class (r es : Registry) (c n d : CStr)
    (hr : ∀ e ∈ r, e.class_name ≠ c) : lookup (r ++ es) c n d = lookup es c n d := by
  unfold lookup
  have : r.find? (fun e => decide (e.class_name = c) && decide (e.method_name = n)
      && decide (e.descriptor = d)) = none := by
    rw [List.find?_eq_none]
    intro e he
    simp [hr e he]
  rw [List.find?_append, this]
  rfl

/-- Two strings that differ at a position inside their given initial parts are different. -/
theorem append_ne_of_differ_at (p q r s : List Char) (k : Nat) (hp : k < p.length)
    (hq : k < q.length) (hne : p.getD k 'x' ≠ q.getD k 'x') : p ++ r ≠ q ++ s := by
  intro h
  apply hne
  have := congrArg (fun l => l.getD k 'x') h
  simpa [List.getD_eq_getElem?_getD, List.getElem?_append_left, hp, hq] using this

theorem desc_doPrivileged_ne_1 (OBJ : CStr) : desc_doPrivileged OBJ ≠ desc_doPrivileged1 OBJ := by
  intro h
  have := congrArg CStr.chars h
  exact append_ne_of_differ_at _ _ _ _ 33 (by decide) (by decide) (by decide) this


theorem desc_doPrivileged_ne_2 (OBJ : CStr) : desc_doPrivileged OBJ ≠ desc_doPrivileged2 OBJ := by
  intro h
  have := congrArg CStr.chars h
  exact append_ne_of_differ_at _ _ _ _ 26 (by decide) (by decide) (by decide) this

theorem desc_doPrivileged_ne_3 (OBJ : CStr) : desc_doPrivileged OBJ ≠ desc_doPrivileged3 OBJ := by
  intro h
  have := congrArg CStr.chars h
  exact append_ne_of_differ_at _ _ _ _ 26 (by decide) (by decide) (by decide) this

theorem desc_doPrivileged1_ne_2 (OBJ : CStr) :
    desc_doPrivileged1 OBJ ≠ desc_doPrivileged2 OBJ := by
  intro h
  have := congrArg CStr.chars h
  exact append_ne_of_differ_at _ _ _ _ 26 (by decide) (by decide) (by decide) this

theorem desc_doPrivileged1_ne_3 (OBJ : CStr) :
    desc_doPrivileged1 OBJ ≠ desc_doPrivileged3 OBJ := by
  intro h
  have := congrArg CStr.chars h
  exact append_ne_of_differ_at _ _ _ _ 26 (by decide) (by decide) (by decide) this

theorem desc_doPrivileged2_ne_3 (OBJ : CStr) :
    desc_doPrivileged2 OBJ ≠ desc_doPrivileged3 OBJ := by
  intro h
  have := congrArg CStr.chars h
  exact append_ne_of_differ_at _ _ _ _ 42 (by decide) (by decide) (by decide) this

/-- In a list of rows with pairwise distinct keys, looking up the key of a row finds that row. -/
theorem lookup_of_mem_nodup (c : CStr) (ms : List JNINativeMethod)
    (hnd : (ms.map JNINativeMethod.key).Nodup) (m : JNINativeMethod) (hm : m ∈ ms) :
    lookup (ms.map (fun m => { class_name := c, method_name := m.name,
                               descriptor := m.descriptor, callable := m.func }))
      c m.name m.descriptor = some m.func := by
  induction ms with
  | nil => simp at hm
  | cons x xs ih =>
    simp only [List.map_cons, List.nodup_cons] at hnd
    by_cases hx : x.key = m.key
    · have hxm : x.name = m.name ∧ x.descriptor = m.descriptor := by
        simpa [JNINativeMethod.key] using hx
      have : m = x := by
        rcases List.mem_cons.mp hm with h | h
        · exact h
        · exact absurd (hx ▸ List.mem_map_of_mem JNINativeMethod.key h) hnd.1
      subst this
      simp [lookup, List.find?_cons]
    · have hmx : m ∈ xs := by
        rcases List.mem_cons.mp hm with h | h
        · exact absurd (h ▸ rfl) hx
        · exact h
      have hk : ¬ (x.name = m.name ∧ x.descriptor = m.descriptor) := by
        intro h
        apply hx
        simp [JNINativeMethod.key, h.1, h.2]
      have := ih hnd.2 hmx
      unfold lookup at this ⊢
      rw [List.map_cons, List.find?_cons]
      have hf : (decide (c = c) && decide (x.name = m.name) &&
          decide (x.descriptor = m.descriptor)) = false := by
        by_cases h1 : x.name = m.name
        · have : x.descriptor ≠ m.descriptor := fun h2 => hk ⟨h1, h2⟩
          simp [this]
        · simp [h1]
      rw [hf]
      exact this

/-- Looking up a key that no row has finds nothing. -/
theorem lookup_of_not_mem (c : CStr) (ms : List JNINativeMethod) (n d : CStr)
    (h : (n, d) ∉ ms.map JNINativeMethod.key) :
    lookup (ms.map (fun m => { class_name := c, method_name := m.name,
                               descriptor := m.descriptor, callable := m.func }))
      c n d = none := by
  unfold lookup
  rw [Option.map_eq_none', List.find?_eq_none]
  intro e he
  obtain ⟨m, hm, rfl⟩ := List.mem_map.mp he
  have : m.key ≠ (n, d) := fun e => h (e ▸ List.mem_map_of_mem JNINativeMethod.key hm)
  simp only [JNINativeMethod.key, ne_eq, Prod.mk.injEq, not_and] at this
  simp only [Bool.and_eq_true, decide_eq_true_eq, not_and]
  intro h1 h2
  exact this h1.2 h2

theorem AccessController_keys_nodup (OBJ : CStr) (rn : JNINativeMethod) :
    ((AccessController.methods OBJ rn).tail.map JNINativeMethod.key).Nodup := by
  have h01 := desc_doPrivileged_ne_1 OBJ
  have h02 := desc_doPrivileged_ne_2 OBJ
  have h03 := desc_doPrivileged_ne_3 OBJ
  have h12 := desc_doPrivileged1_ne_2 OBJ
  have h13 := desc_doPrivileged1_ne_3 OBJ
  have h23 := desc_doPrivileged2_ne_3 OBJ
  have n1 : lit_getStackAccessControlContext ≠ lit_getInheritedAccessControlContext := by decide
  have n2 : lit_getStackAccessControlContext ≠ lit_doPrivileged := by decide
  have n3 : lit_getInheritedAccessControlContext ≠ lit_doPrivileged := by decide
  simp [AccessController.methods, JNINativeMethod.key, h01, h02, h03, h12, h13, h23, n1, n2, n3]

theorem AccessController_all_keys_nodup (OBJ : CStr) (rn : JNINativeMethod)
    (hrn : rn.name = lit_registerNatives) :
    ((AccessController.methods OBJ rn).map JNINativeMethod.key).Nodup := by
  have hn := AccessController_keys_nodup OBJ rn
  have n1 : lit_registerNatives ≠ lit_getStackAccessControlContext := by decide
  have n2 : lit_registerNatives ≠ lit_getInheritedAccessControlContext := by decide
  have n3 : lit_registerNatives ≠ lit_doPrivileged := by decide
  have : AccessController.methods OBJ rn = rn :: (AccessController.methods OBJ rn).tail := rfl
  rw [this, List.map_cons, List.nodup_cons]
  refine ⟨?_, hn⟩
  simp [AccessController.methods, JNINativeMethod.key, hrn, n1, n2, n3]

/-- C1: for every expansion `OBJ` of the descriptor suffix, the six rows of
the `java/security/AccessController` table that follow the `registerNatives`
row have pairwise distinct (name, descriptor) keys, and so have all seven
rows; after
`java_security_AccessController_registerNatives` has run on a table holding no
row of that class, looking up `doPrivileged` with the descriptor of each of
its four overloads yields `doPrivileged`, `doPrivileged1`, `doPrivileged2` and
`doPrivileged3` respectively, every row of the table is found under its own
key, and a (name, descriptor) that is not in the table is absent. -/
theorem AccessController_lookup (OBJ : CStr) (rn : JNINativeMethod) (r : Registry)
    (hrn : rn.name = lit_registerNatives)
    (hr : ∀ e ∈ r, e.class_name ≠ lit_AccessController) :
    ((AccessController.methods OBJ rn).tail.map JNINativeMethod.key).Nodup ∧
    (AccessController.methods OBJ rn).tail.length = 6 ∧
    ((AccessController.methods OBJ rn).map JNINativeMethod.key).Nodup ∧
    lookup (java_security_AccessController_registerNatives OBJ rn r)
      lit_AccessController lit_doPrivileged (desc_doPrivileged OBJ)
        = some NativeFn.doPrivileged ∧
    lookup (java_security_AccessController_registerNatives OBJ rn r)
      lit_AccessController lit_doPrivileged (desc_doPrivileged1 OBJ)
        = some NativeFn.doPrivileged1 ∧
    lookup (java_security_AccessController_registerNatives OBJ rn r)
      lit_AccessController lit_doPrivileged (desc_doPrivileged2 OBJ)
        = some NativeFn.doPrivileged2 ∧
    lookup (java_security_AccessController_registerNatives OBJ rn r)
      lit_AccessController lit_doPrivileged (desc_doPrivileged3 OBJ)
        = some NativeFn.doPrivileged3 ∧
    (∀ m ∈ AccessController.methods OBJ rn,
      lookup (java_security_AccessController_registerNatives OBJ rn r)
        lit_AccessController m.name m.descriptor = some m.func) ∧
    (∀ n d, (n, d) ∉ (AccessController.methods OBJ rn).map JNINativeMethod.key →
      lookup (java_security_AccessController_registerNatives OBJ rn r)
        lit_AccessController n d = none) := by
  have hnd := AccessController_all_keys_nodup OBJ rn hrn
  have found : ∀ m ∈ AccessController.methods OBJ rn,
      lookup (java_security_AccessController_registerNatives OBJ rn r)
        lit_AccessController m.name m.descriptor = some m.func := by
    intro m hm
    unfold java_security_AccessController_registerNatives
    rw [registerNatives_eq, lookup_append_of_other_class _ _ _ _ _ hr]
    exact lookup_of_mem_nodup _ _ hnd m hm
  refine ⟨AccessController_keys_nodup OBJ rn, rfl, hnd, ?_, ?_, ?_, ?_, found, ?_⟩
  · exact found { name := lit_doPrivileged, descriptor := desc_doPrivileged OBJ,
                  func := NativeFn.doPrivileged } (by simp [AccessController.methods])
  · exact found { name := lit_doPrivileged, descriptor := desc_doPrivileged1 OBJ,
                  func := NativeFn.doPrivileged1 } (by simp [AccessController.methods])
  · exact found { name := lit_doPrivileged, descriptor := desc_doPrivileged2 OBJ,
                  func := NativeFn.doPrivileged2 } (by simp [AccessController.methods])
  · exact found { name := lit_doPrivileged, descriptor := desc_doPrivileged3 OBJ,
                  func := NativeFn.doPrivileged3 } (by simp [AccessController.methods])
  · intro n d h
    unfold java_security_AccessController_registerNatives
    rw [registerNatives_eq, lookup_append_of_other_class _ _ _ _ _ hr]
    exact lookup_of_not_mem _ _ n d h

/-- C1 witness: `OBJ` = `"Ljava/lang/Object;"`, registration after that of
`sun/io/Win32ErrorMode`. -/
theorem AccessController_lookup_witness :
    sample_rn.name = lit_registerNatives ∧
    (∀ e ∈ sun_io_Win32ErrorMode_registerNatives sample_rn [],
      e.class_name ≠ lit_AccessController) ∧
    lookup (java_security_AccessController_registerNatives sample_OBJ sample_rn
        (sun_io_Win32ErrorMode_registerNatives sample_rn []))
      lit_AccessController lit_doPrivileged (desc_doPrivileged1 sample_OBJ)
        = some NativeFn.doPrivileged1 ∧
    lookup (java_security_AccessController_registerNatives sample_OBJ sample_rn
        (sun_io_Win32ErrorMode_registerNatives sample_rn []))
      lit_AccessController lit_setErrorMode lit_J_J = none :=
  ⟨rfl, by decide,
    (AccessController_lookup sample_OBJ sample_rn
      (sun_io_Win32ErrorMode_registerNatives sample_rn []) rfl (by decide)).2.2.2.2.1,
    by decide⟩

/-! ## The natives of `AccessController.cpp` -/

theorem getDeclaredMethod_some (c : Class) (n d : CStr) (m : Method)
    (h : c.getDeclaredMethod n d = some m) : m ∈ c.methods ∧ m.name = n ∧ m.descriptor = d := by
  unfold Class.getDeclaredMethod at h
  have h1 := List.find?_some h
  have h2 := List.mem_of_find?_eq_some h
  simp only [Bool.and_eq_true, decide_eq_true_eq] at h1
  exact ⟨h2, h1.1, h1.2⟩

/-- C4: when the exact class of `action` declares the method with the symbols
`S_run`, `S_obj` (found as `m`), each of the four natives makes exactly one
call of `execJavaFunc`, on `m` with the argument list `{action}`, and returns
the reference `getRef` reads from the slot that call yields; the two natives
that take a `context` give the same result for every `context`. -/
theorem doPrivileged_calls_run {σ Slot : Type} (I : Interpreter σ Slot) (S_run S_obj : CStr)
    (action : Object) (context : jobject) (w : World σ) (m : Method)
    (hm : action.clazz.getDeclaredMethod S_run S_obj = some m) :
    (m ∈ action.clazz.methods ∧ m.name = S_run ∧ m.descriptor = S_obj) ∧
    doPrivileged I S_run S_obj action w =
      (I.getRef (I.execJavaFunc (some m) [some action] w.vm).1,
        { vm := (I.execJavaFunc (some m) [some action] w.vm).2,
          execJavaFunc_calls := w.execJavaFunc_calls ++ [(some m, [some action])] }) ∧
    doPrivileged1 I S_run S_obj action context w =
      (I.getRef (I.execJavaFunc (some m) [some action] w.vm).1,
        { vm := (I.execJavaFunc (some m) [some action] w.vm).2,
          execJavaFunc_calls := w.execJavaFunc_calls ++ [(some m, [some action])] }) ∧
    doPrivileged2 I S_run S_obj action w =
      (I.getRef (I.execJavaFunc (some m) [some action] w.vm).1,
        { vm := (I.execJavaFunc (some m) [some action] w.vm).2,
          execJavaFunc_calls := w.execJavaFunc_calls ++ [(some m, [some action])] }) ∧
    doPrivileged3 I S_run S_obj action context w =
      (I.getRef (I.execJavaFunc (some m) [some action] w.vm).1,
        { vm := (I.execJavaFunc (some m) [some action] w.vm).2,
          execJavaFunc_calls := w.execJavaFunc_calls ++ [(some m, [some action])] }) ∧
    (∀ context₂ : jobject,
      doPrivileged1 I S_run S_obj action context₂ w =
        doPrivileged1 I S_run S_obj action context w ∧
      doPrivileged3 I S_run S_obj action context₂ w =
        doPrivileged3 I S_run S_obj action context w) := by
  have key : doPrivileged I S_run S_obj action w =
      (I.getRef (I.execJavaFunc (some m) [some action] w.vm).1,
        { vm := (I.execJavaFunc (some m) [some action] w.vm).2,
          execJavaFunc_calls := w.execJavaFunc_calls ++ [(some m, [some action])] }) := by
    simp only [doPrivileged, hm, World.execJavaFunc]
  refine ⟨getDeclaredMethod_some _ _ _ _ hm, key, ?_, ?_, ?_, ?_⟩
  · simpa only [doPrivileged1] using key
  · simpa only [doPrivileged2] using key
  · simpa only [doPrivileged3] using key
  · intro context₂
    exact ⟨rfl, rfl⟩

/-- C4 witness: the sample action, whose class declares `run`, with the sample
context, on an interpreter that has made no call yet. -/
theorem doPrivileged_calls_run_witness :
    sample_action.clazz.getDeclaredMethod sym_run sym_obj = some sample_run ∧
    (doPrivileged3 sample_interp sym_run sym_obj sample_action (some sample_context)
        { vm := 0, execJavaFunc_calls := [] }).2.execJavaFunc_calls
      = [(some sample_run, [some sample_action])] ∧
    (doPrivileged3 sample_interp sym_run sym_obj sample_action (some sample_context)
        { vm := 0, execJavaFunc_calls := [] }).1 = some sample_action :=
  ⟨by decide,
    congrArg (fun p => p.2.execJavaFunc_calls)
      (doPrivileged_calls_run sample_interp sym_run sym_obj sample_action (some sample_context)
        { vm := 0, execJavaFunc_calls := [] } sample_run (by decide)).2.2.2.2.1,
    rfl⟩

/-! ## The initialization-state flag -/

/-- C3 as stated fails: no assignment of class entities to the four states
`INIT_FAILED`, `INITIALIZING`, `INITIALIZED`, `LINKED` gives them four
different values of the `inited` flag. -/
theorem inited_cannot_record_four_states :
    ¬ ∃ c : ClassState → jclass,
      ∀ s ∈ flaggedStates, ∀ t ∈ flaggedStates, s ≠ t → (c s).inited ≠ (c t).inited := by
  rintro ⟨c, h⟩
  have h1 := h ClassState.INIT_FAILED (by decide) ClassState.INITIALIZING (by decide) (by decide)
  have h2 := h ClassState.INIT_FAILED (by decide) ClassState.INITIALIZED (by decide) (by decide)
  have h3 := h ClassState.INITIALIZING (by decide) ClassState.INITIALIZED (by decide) (by decide)
  revert h1 h2 h3
  cases (c ClassState.INIT_FAILED).inited <;> cases (c ClassState.INITIALIZING).inited <;>
    cases (c ClassState.INITIALIZED).inited <;> simp

/-- C3, as the code has it: the `inited` flag of a class entity takes one of
two values, both occur, and of any three class entities two carry the same
value, so the flag tells apart two states and no more. -/
theorem inited_records_two_states :
    (∀ c : jclass, c.inited = true ∨ c.inited = false) ∧
    (∃ c d : jclass, c.inited = true ∧ d.inited = false) ∧
    (∀ c₁ c₂ c₃ : jclass,
      c₁.inited = c₂.inited ∨ c₁.inited = c₃.inited ∨ c₂.inited = c₃.inited) := by
  refine ⟨?_, ?_, ?_⟩
  · intro c
    cases c.inited <;> simp
  · exact ⟨{ jclass.named CStr.empty with inited := true }, jclass.named CStr.empty, rfl, rfl⟩
  · intro c₁ c₂ c₃
    cases c₁.inited <;> cases c₂.inited <;> cases c₃.inited <;> simp

end JVM
